import Mathlib

set_option maxHeartbeats 1600000

/-!
Verification development for the web-of-phyngs CFD case-configuration core.

The definitions below are shallow embeddings of the Python sources under
`backend/python/wopsimulator/`:

* `Wop.BlockMesh`   — `openfoam/system/blockmesh.py`
* `Wop.Boundaries`  — `openfoam/boundaries/boundary_types.py`
* `Wop.Geometry`    — `geometry/primitives.py` and `geometry/manipulator.py`
* `Wop.Codec`       — `openfoam/boundaries/boundary_conditions.py`

Machine floats of the original are modelled as exact rationals (`ℚ`),
Python lists as Lean lists, Python dicts as insertion-ordered association
lists, and raised exceptions as `Except.error` / explicit crash flags.
-/

namespace Wop

/-! ## Blockmesh: `openfoam/system/blockmesh.py` -/

namespace BlockMesh

/-- `percents = [0, 50, 100]` from `BlockMeshDict._calculate_quality_coefficients`. -/
def percents : List ℚ := [0, 50, 100]

/-- `values = [self._max_block_size, self._avg_block_size, self._min_block_size]`
with `self._avg_block_size = (self._min_block_size + self._max_block_size) / 2`. -/
def sizeValues (minBS maxBS : ℚ) : List ℚ := [maxBS, (minBS + maxBS) / 2, minBS]

/-- `sum_of_mult = sum([x * y for x, y in zip(percents, values)])`. -/
def sum_of_mult (minBS maxBS : ℚ) : ℚ :=
  (List.zipWith (fun x y => x * y) percents (sizeValues minBS maxBS)).sum

/-- `percents_sq_sum = math.pow(sum(percents), 2)` — the square of the sum
(despite the name). -/
def percents_sq_sum : ℚ := percents.sum ^ 2

/-- `percents_sum_sq = sum(percents_sq)` — the sum of the squares
(despite the name). -/
def percents_sum_sq : ℚ := (percents.map (fun p => p ^ 2)).sum

/-- `self._quality_a = (sum_percents * sum_values - n * sum_of_mult) /
(percents_sq_sum - n * percents_sum_sq)` with `n = len(percents)`. -/
def quality_a (minBS maxBS : ℚ) : ℚ :=
  (percents.sum * (sizeValues minBS maxBS).sum
      - (percents.length : ℚ) * sum_of_mult minBS maxBS)
    / (percents_sq_sum - (percents.length : ℚ) * percents_sum_sq)

/-- `self._quality_b = (sum_percents * sum_of_mult - percents_sum_sq * sum_values) /
(percents_sq_sum - n * percents_sum_sq)`: the numerator's second term uses
`percents_sum_sq` (the sum of the squares) and the denominator's first term
uses `percents_sq_sum` (the square of the sum). -/
def quality_b (minBS maxBS : ℚ) : ℚ :=
  (percents.sum * sum_of_mult minBS maxBS
      - percents_sum_sq * (sizeValues minBS maxBS).sum)
    / (percents_sq_sum - (percents.length : ℚ) * percents_sum_sq)

/-- `self._block_size = self._quality_a * self._mesh_quality + self._quality_b`. -/
def blockSizeAt (minBS maxBS q : ℚ) : ℚ := quality_a minBS maxBS * q + quality_b minBS maxBS

/-- One entry of `block.cells_in_direction = [int(dim // self._block_size) for dim in
block.get_dimensions()]` (`//` on floats is the floor of the quotient). -/
def cellsPerAxis (minBS maxBS q dim : ℚ) : ℤ := ⌊dim / blockSizeAt minBS maxBS q⌋

/-- Modelled from the spec: the least-squares linear-regression slope over the
calibration points `{(0, maxBlockSize), (50, avgBlockSize), (100, minBlockSize)}`
(spec §4.3: "fit a line through three calibration points … via least-squares
linear regression over {percent, blockSize} pairs"). -/
def lsqSlope (minBS maxBS : ℚ) : ℚ :=
  let xs := percents
  let ys := sizeValues minBS maxBS
  let n : ℚ := xs.length
  let sxy := (List.zipWith (fun x y => x * y) xs ys).sum
  (n * sxy - xs.sum * ys.sum) / (n * (xs.map (fun x => x ^ 2)).sum - xs.sum ^ 2)

/-- Modelled from the spec: the least-squares linear-regression intercept over the
same three calibration points, so that `blockSize(quality) = a*quality + b`. -/
def lsqIntercept (minBS maxBS : ℚ) : ℚ :=
  let xs := percents
  let ys := sizeValues minBS maxBS
  let n : ℚ := xs.length
  (ys.sum - lsqSlope minBS maxBS * xs.sum) / n

/-- A mesh block: the dimensions returned by `Block.get_dimensions` and the
`cells_in_direction` attribute. -/
structure BMBlock where
  dims : List ℚ
  cells_in_direction : List ℤ
deriving DecidableEq, Repr

/-- `BlockMeshDict` state: `_mesh_quality`, `_min_block_size`, `_max_block_size`,
the coefficients assigned by `_calculate_quality_coefficients`, `_block_size`,
and the registered blocks. -/
structure BlockMeshDict where
  mesh_quality : ℚ
  min_block_size : ℚ
  max_block_size : ℚ
  avg_block_size : ℚ
  qa : ℚ
  qb : ℚ
  block_size : ℚ
  blocks : List BMBlock
deriving DecidableEq, Repr

/-- `BlockMeshDict._calculate_quality_coefficients`: reassigns
`_avg_block_size`, `_quality_a`, `_quality_b` from the current min/max sizes. -/
def calcQualityCoefficients (s : BlockMeshDict) : BlockMeshDict :=
  { s with
    avg_block_size := (s.min_block_size + s.max_block_size) / 2
    qa := quality_a s.min_block_size s.max_block_size
    qb := quality_b s.min_block_size s.max_block_size }

/-- `BlockMeshDict._calculate_mesh`: `block.cells_in_direction =
[int(dim // self._block_size) for dim in block.get_dimensions()]`. -/
def calcMesh (bs : ℚ) (b : BMBlock) : BMBlock :=
  { b with cells_in_direction := b.dims.map (fun d => ⌊d / bs⌋) }

/-- `BlockMeshDict._calculate_mesh_quality`. The returned flag is `true` when
the `ValueError` for an out-of-range quality is raised; in that case the
mutations performed before the `raise` (the coefficient refresh) are kept and
`_block_size` and the blocks are untouched. -/
def calcMeshQuality (s : BlockMeshDict) : BlockMeshDict × Bool :=
  let s := calcQualityCoefficients s
  if 0 > s.mesh_quality ∨ s.mesh_quality > 100 then (s, true)
  else
    let bs := s.qa * s.mesh_quality + s.qb
    ({ s with block_size := bs, blocks := s.blocks.map (calcMesh bs) }, false)

/-- The `mesh_quality` property setter: assigns `self._mesh_quality = mesh_quality`
and then calls `self._calculate_mesh_quality()`. -/
def setMeshQuality (s : BlockMeshDict) (q : ℚ) : BlockMeshDict × Bool :=
  calcMeshQuality { s with mesh_quality := q }

end BlockMesh

/-! ## Boundary types: `openfoam/boundaries/boundary_types.py` -/

namespace Boundaries

/-- A Python value stored in a boundary object's `__dict__` or in a parsed
boundary dictionary.  Machine floats are modelled as exact rationals. -/
inductive Val where
  | vint (n : ℤ)
  | vfloat (q : ℚ)
  | vstr (s : String)
  | vbool (b : Bool)
  | vnone
  | vIntList (ns : List ℤ)
  | vStrList (ss : List String)
deriving DecidableEq, Repr

/-- Python truthiness restricted to the `Val` constructors that occur here. -/
def Val.truthy : Val → Bool
  | .vint n => n ≠ 0
  | .vfloat q => q ≠ 0
  | .vstr s => s ≠ ""
  | .vbool b => b
  | .vnone => false
  | .vIntList ns => ns ≠ []
  | .vStrList ss => ss ≠ []

/-- Python `str` of a `Val`.  For `vfloat` this is exact only for integral
values (`str(300.0) = "300.0"`); no theorem below renders a non-integral
float.  `vIntList`/`vStrList` are rendered as Python renders a list. -/
def pyStr : Val → String
  | .vint n => toString n
  | .vfloat q => if q.den = 1 then toString q.num ++ ".0" else toString q.num ++ "/" ++ toString q.den
  | .vstr s => s
  | .vbool b => if b then "True" else "False"
  | .vnone => "None"
  | .vIntList ns => "[" ++ String.intercalate ", " (ns.map toString) ++ "]"
  | .vStrList ss => "[" ++ String.intercalate ", " (ss.map (fun s => "'" ++ s ++ "'")) ++ "]"

/-- A boundary object: its `__dict__` as an insertion-ordered association list
(`type` and `is_uniform` live in the same dict, as in Python). -/
structure BInst where
  battrs : List (String × Val)
deriving DecidableEq, Repr

/-- Python `dict` update: replace in place if the key exists, else append. -/
def dictUpd (d : List (String × Val)) (k : String) (v : Val) : List (String × Val) :=
  if d.any (fun p => p.1 = k) then d.map (fun p => if p.1 = k then (k, v) else p)
  else d ++ [(k, v)]

/-- Lookup in an association list (Python `dict.__getitem__`, as an `Option`). -/
def dictGet (d : List (String × Val)) (k : String) : Option Val :=
  (d.find? (fun p => p.1 = k)).map Prod.snd

def GEOMETRIC_BOUNDARY_TYPES : List String := ["empty", "processor", "symmetryPlane", "wedge"]

def GENERAL_BOUNDARY_TYPES : List String :=
  ["fixedValue", "fixedGradient", "mixed", "codedFixedValue", "uniformFixedValue",
   "zeroGradient", "calculated"]

def INLET_BOUNDARY_TYPES : List String :=
  ["outletInlet", "flowRateInletVelocity", "turbulentDigitalFilterInlet", "turbulentDFSEMInlet",
   "fanPressure", "turbulentIntensityKineticEnergyInlet",
   "turbulentMixingLengthDissipationRateInlet", "turbulentMixingLengthFrequencyInlet",
   "atmBoundaryLayerInletEpsilon", "atmBoundaryLayerInletK", "atmBoundaryLayerInletOmega",
   "atmBoundaryLayerInletVelocity", "atmBoundaryLayer"]

def OUTLET_BOUNDARY_TYPES : List String :=
  ["inletOutlet", "pressureInletOutletVelocity", "fanPressure", "totalPressure",
   "totalTemperature"]

def WALL_BOUNDARY_TYPES : List String :=
  ["noSlip", "translatingWallVelocity", "movingWallVelocity",
   "atmTurbulentHeatFluxTemperature", "atmAlphatkWallFunction", "atmEpsilonWallFunction",
   "atmNutkWallFunction", "atmNutUWallFunction", "atmNutWallFunction", "atmOmegaWallFunction",
   "epsilonWallFunction", "kLowReWallFunction", "kqRWallFunction", "nutkRoughWallFunction",
   "nutkWallFunction", "nutLowReWallFunction", "nutUBlendedWallFunction",
   "nutURoughWallFunction", "nutUSpaldingWallFunction", "nutUTabulatedWallFunction",
   "nutUWallFunction", "nutWallFunction", "omegaWallFunction",
   "compressible::alphatWallFunction", "compressible::epsilonWallFunction",
   "fixedFluxPressure"]

def COUPLED_BOUNDARY_TYPES : List String :=
  ["cyclicAMI", "cyclic", "fan", "compressible::turbulentTemperatureCoupledBaffleMixed"]

/-- The keyword arguments threaded through the boundary constructors.  Only the
keywords consumed by the attribute-binding branches of the six `__init__`
methods are represented; the remaining keywords are read only by `pass`
branches and never stored.  A Python default of `None` is `Val.vnone`. -/
structure BKwargs where
  value : Val := .vnone
  is_uniform : Bool := false
  phi : Val := .vnone
  outletValue : Val := .vnone
  inletValue : Val := .vnone
  volumetricFlowRate : Val := .vnone
  massFlowRate : Val := .vnone
  tangentialVelocity : Val := .vnone
  gradient : Val := .vnone
  neighbourFieldName : Val := .vnone
  kappaMethod : Val := .vnone
  kappa : Val := .vnone
  Tnbr : Val := .vnone
deriving DecidableEq, Repr

/-- `BoundaryType.__set__`: assigning `self.type` validates the type name
against the class's `types` list and raises `ValueError` otherwise; the base
dict then holds `{'type': boundary_type}`. -/
def typeBase (types : List String) (bt : String) : Except String BInst :=
  if bt ∈ types then .ok ⟨[("type", .vstr bt)]⟩
  else .error ("ValueError: Incorrect boundary type " ++ bt)

/-- `GeometricBoundary.__init__` (non-empty instance): only sets `self.type`. -/
def geometricInit (bt : String) : Except String BInst :=
  typeBase GEOMETRIC_BOUNDARY_TYPES bt

/-- `GeneralBoundary.__init__` (non-empty instance). -/
def generalInit (bt : String) (kw : BKwargs) : Except String BInst := do
  let base ← typeBase GENERAL_BOUNDARY_TYPES bt
  if bt = "fixedValue" ∨ bt = "calculated" then
    -- `_init_fixed_value_type` / `_init_calculated_type`
    if kw.value ≠ .vnone then
      .ok ⟨base.battrs ++ [("value", kw.value), ("is_uniform", .vbool kw.is_uniform)]⟩
    else .error ("ValueError: Missing argument for " ++ bt ++ " general boundary type. Value is required.")
  else
    -- `fixedGradient`, `mixed`, `codedFixedValue`, `uniformFixedValue`: helper bodies
    -- are `pass`; `zeroGradient` binds nothing.
    .ok base

/-- `InletBoundary.__init__` (non-empty instance). -/
def inletInit (bt : String) (kw : BKwargs) : Except String BInst := do
  let base ← typeBase INLET_BOUNDARY_TYPES bt
  if bt = "outletInlet" then
    -- `_init_inlet_outlet_type(outletValue, value, is_uniform, phi)`
    if kw.outletValue ≠ .vnone ∧ kw.value ≠ .vnone then
      .ok ⟨base.battrs ++ [("outletValue", kw.outletValue), ("value", kw.value),
                           ("phi", kw.phi), ("is_uniform", .vbool kw.is_uniform)]⟩
    else .error ("ValueError: Missing arguments for " ++ bt ++ " inlet boundary type. Outlet value and value arerequired, phi is optional.")
  else if bt = "flowRateInletVelocity" then
    -- `_init_flow_rate_type(value, is_uniform, volumetricFlowRate, massFlowRate)`
    if kw.value ≠ .vnone ∧ (kw.volumetricFlowRate ≠ .vnone ∨ kw.massFlowRate ≠ .vnone) then
      .ok ⟨base.battrs ++ [("volumetricFlowRate", kw.volumetricFlowRate),
                           ("massFlowRate", kw.massFlowRate), ("value", kw.value),
                           ("is_uniform", .vbool kw.is_uniform)]⟩
    else .error ("ValueError: Missing arguments for " ++ bt ++ " inlet boundary type.")
  else
    -- every other inlet subtype dispatches to a helper whose body is `pass`
    .ok base

/-- `OutletBoundary.__init__` (non-empty instance). -/
def outletInit (bt : String) (kw : BKwargs) : Except String BInst := do
  let base ← typeBase OUTLET_BOUNDARY_TYPES bt
  if bt = "inletOutlet" then
    if kw.value ≠ .vnone ∧ kw.inletValue ≠ .vnone then
      .ok ⟨base.battrs ++ [("value", kw.value), ("inlet_value", kw.inletValue),
                           ("phi", kw.phi), ("is_uniform", .vbool kw.is_uniform)]⟩
    else .error ("ValueError: Missing argument for " ++ bt ++ " outlet boundary type.")
  else if bt = "pressureInletOutletVelocity" then
    if kw.value ≠ .vnone ∧ kw.tangentialVelocity ≠ .vnone then
      .ok ⟨base.battrs ++ [("value", kw.value), ("tangential_velocity", kw.tangentialVelocity),
                           ("phi", kw.phi), ("is_uniform", .vbool kw.is_uniform)]⟩
    else .error ("ValueError: Missing argument for " ++ bt ++ " outlet boundary type.")
  else
    -- `fanPressure`, `totalPressure`, `totalTemperature`: helper bodies are `pass`
    .ok base

/-- `WallBoundary.__init__` (non-empty instance): only the three subtypes whose
helpers bind attributes do anything; the many wall-function helpers are `pass`. -/
def wallInit (bt : String) (kw : BKwargs) : Except String BInst := do
  let base ← typeBase WALL_BOUNDARY_TYPES bt
  if bt = "compressible::alphatWallFunction" ∨ bt = "compressible::epsilonWallFunction"
      ∨ bt = "fixedFluxPressure" then
    .ok ⟨base.battrs ++ [("value", kw.value), ("is_uniform", .vbool kw.is_uniform)]⟩
  else
    .ok base

/-- `CoupledBoundary.__init__` (non-empty instance).  Note the source sets
`type = BoundaryType(boundary='wall')` for this class, so the validation list
is the wall list. -/
def coupledInit (bt : String) (kw : BKwargs) : Except String BInst := do
  let base ← typeBase WALL_BOUNDARY_TYPES bt
  if bt = "compressible::turbulentTemperatureCoupledBaffleMixed" then
    if kw.value ≠ .vnone ∧ kw.neighbourFieldName ≠ .vnone ∧ kw.kappaMethod ≠ .vnone
        ∧ kw.kappa ≠ .vnone ∧ kw.Tnbr ≠ .vnone then
      .ok ⟨base.battrs ++ [("value", kw.value), ("is_uniform", .vbool kw.is_uniform),
                           ("neighbour_field_name", kw.neighbourFieldName),
                           ("kappa_method", kw.kappaMethod), ("kappa", kw.kappa),
                           ("Tnbr", kw.Tnbr)]⟩
    else .error ("ValueError: Missing argument for " ++ bt ++ " wall boundary type.")
  else
    -- `cyclicAMI`, `cyclic` helpers are `pass`; `fan` binds nothing
    .ok base

/-- `BoundaryConditionBase._get_class_by_boundary_type` followed by the chosen
class's constructor.  Unknown names raise `ValueError('TODO error')`. -/
def constructBoundary (bt : String) (kw : BKwargs) : Except String BInst :=
  if bt ∈ GEOMETRIC_BOUNDARY_TYPES then geometricInit bt
  else if bt ∈ GENERAL_BOUNDARY_TYPES then generalInit bt kw
  else if bt ∈ INLET_BOUNDARY_TYPES then inletInit bt kw
  else if bt ∈ OUTLET_BOUNDARY_TYPES then outletInit bt kw
  else if bt ∈ WALL_BOUNDARY_TYPES then wallInit bt kw
  else if bt ∈ COUPLED_BOUNDARY_TYPES then coupledInit bt kw
  else .error "ValueError: TODO error"

/-- Python `str.lower` restricted to ASCII (all attribute names are ASCII). -/
def lowerStr (s : String) : String := String.mk (s.toList.map Char.toLower)

/-- `seqStarts pat s` is true when `pat` is an initial segment of `s`. -/
def seqStarts : List Char → List Char → Bool
  | [], _ => true
  | _ :: _, [] => false
  | a :: as, b :: bs => a = b && seqStarts as bs

/-- Substring test on character lists (Python `pat in s`). -/
def hasSeq (pat : List Char) : List Char → Bool
  | [] => seqStarts pat []
  | c :: rest => seqStarts pat (c :: rest) || hasSeq pat rest

/-- Python `pat in s` for strings. -/
def strHasSub (s pat : String) : Bool := hasSeq pat.toList s.toList

/-- Lexicographic code-point order on character lists (Python string `<=`). -/
def charsLe : List Char → List Char → Bool
  | [], _ => true
  | _ :: _, [] => false
  | a :: as, b :: bs => if a < b then true else if a = b then charsLe as bs else false

/-- Python string comparison (code-point lexicographic). -/
def pyStrLe (s t : String) : Bool := charsLe s.toList t.toList

/-- Insertion sort by the character-wise (code-point) order, matching Python's
`sorted` on ASCII attribute names (what `dir()` produces). -/
def sortStrings (l : List String) : List String :=
  l.foldr (fun s acc => insertStr s acc) []
where
  insertStr (s : String) : List String → List String
    | [] => [s]
    | t :: ts => if pyStrLe s t then s :: t :: ts else t :: insertStr s ts

/-- Python `max(list_of_attr, key=len)`: the first element of maximal length. -/
def pyMaxByLen : List String → String
  | [] => ""
  | h :: t => t.foldl (fun cur x => if x.length > cur.length then x else cur) h

/-- The value part rendered by `BoundaryBase.__str__`: a list becomes
`'(' + ' '.join(str(val) for val in value) + ')'`, anything else `str(value)`. -/
def renderVal : Val → String
  | .vIntList ns => "(" ++ String.intercalate " " (ns.map toString) ++ ")"
  | .vStrList ss => "(" ++ String.intercalate " " ss ++ ")"
  | v => pyStr v

/-- `BoundaryBase.__str__`.  `list_of_attr` is `'type'` followed by the sorted
non-dunder, non-callable attribute names other than `type`/`is_uniform`;
attributes whose value is `None` are skipped; the `uniform ` prefix is applied
to every attribute whose lowercased name contains `"value"` when the instance
is uniform. -/
def renderBoundary (b : BInst) : String :=
  let names := (b.battrs.map Prod.fst).filter (fun a => a ≠ "type" ∧ a ≠ "is_uniform")
  let list_of_attr := "type" :: sortStrings names
  let uniform :=
    match dictGet b.battrs "is_uniform" with
    | some v => if v.truthy then "uniform " else ""
    | none => ""
  let max_length := (pyMaxByLen list_of_attr).length + 1
  let body := String.join (list_of_attr.map (fun name =>
    match dictGet b.battrs name with
    | none => ""          -- unreachable for instances built by the constructors
    | some .vnone => ""   -- `if value is None: continue`
    | some v =>
        "\n" ++ "    " ++ name ++ String.mk (List.replicate (max_length - name.length) ' ')
          ++ (if strHasSub (lowerStr name) "value" then uniform else "")
          ++ renderVal v ++ ";"))
  "\n\x7b" ++ body ++ "\n\x7d"

/-- Split a character list at every occurrence of `c` (Python `str.split(c)`). -/
def splitCharAux (c : Char) : List Char → List Char → List (List Char)
  | [], acc => [acc.reverse]
  | x :: xs, acc =>
      if x = c then acc.reverse :: splitCharAux c xs [] else splitCharAux c xs (x :: acc)

/-- Split a string at every occurrence of the character `c`. -/
def splitOnChar (c : Char) (s : String) : List String :=
  (splitCharAux c s.toList []).map (fun l => String.mk l)

/-- Whitespace-separated tokens of one rendered line (used to compare a line's
content while ignoring the alignment padding `__str__` inserts). -/
def wsTokens (s : String) : List String := (splitOnChar ' ' s).filter (fun t => t ≠ "")

/-- The rendered text of `renderBoundary`, line by line, as token lists. -/
def renderTokenLines (b : BInst) : List (List String) :=
  (splitOnChar '\n' (renderBoundary b)).map wsTokens

/-- `True` exactly on `Except.error`. -/
def isErr : Except String BInst → Bool
  | .error _ => true
  | .ok _ => false

/-- The keyword arguments of the required-attribute scenario:
`outletValue=[1,2,3], value=[1,2,3], is_uniform=True`. -/
def c4kwargs : BKwargs :=
  { outletValue := .vIntList [1, 2, 3], value := .vIntList [1, 2, 3], is_uniform := true }

/-- The same scenario with the required `outletValue` keyword omitted. -/
def c4missing : BKwargs := { value := .vIntList [1, 2, 3], is_uniform := true }

/-- Token lines of the text rendered for the `outletInlet` boundary of the
scenario (empty if construction failed). -/
def c4lines : List (List String) :=
  match inletInit "outletInlet" c4kwargs with
  | .ok b => renderTokenLines b
  | .error _ => []

end Boundaries

/-! ## Geometric primitives: `geometry/primitives.py` and `geometry/manipulator.py` -/

namespace Geometry

/-- First index of `x` in `l` starting from counter `k` (Python `list.index`). -/
def firstIdxAux [DecidableEq α] (x : α) : List α → ℕ → Option ℕ
  | [], _ => none
  | a :: as, k => if a = x then some k else firstIdxAux x as (k + 1)

/-- First index of `x` in `l`, `none` when absent (`list.index` / `in`). -/
def firstIdx [DecidableEq α] (x : α) (l : List α) : Option ℕ := firstIdxAux x l 0

/-- The `Point` class registry and instances.  `locations`, `numbers` and
`current` mirror the class attributes `_locations`, `_numbers`,
`_current_number`; `coords` and `nums` hold each instance's `coords` and `num`
(instances are identified by creation index). -/
structure PointStore where
  locations : List (List ℚ)
  numbers : List ℕ
  current : ℕ
  coords : List (List ℚ)
  nums : List ℕ
deriving DecidableEq, Repr

/-- A fresh `Point` registry. -/
def emptyPoints : PointStore := ⟨[], [], 0, [], []⟩

/-- `Point(...)`: `__new__` deduplicates on the raw coordinate list
(`if coords in cls._locations`).  On a hit it sets `cls._inst_number = idx` —
the *list index*, not `cls._numbers[idx]` — and returns the existing instance,
whose `__init__` then re-runs and reassigns `instance.num = cls._inst_number`.
On a miss a new instance is appended with number `_current_number + 1`.
Returns the instance index. -/
def makePoint (s : PointStore) (cs : List ℚ) : PointStore × ℕ :=
  match firstIdx cs s.locations with
  | some idx =>
      ({ s with coords := s.coords.set idx cs, nums := s.nums.set idx idx }, idx)
  | none =>
      let n := s.current + 1
      ({ locations := s.locations ++ [cs], numbers := s.numbers ++ [n], current := n,
         coords := s.coords ++ [cs], nums := s.nums ++ [n] }, s.coords.length)

/-- `Point.translate(coords)`: mutates the instance coordinates by `+=`
componentwise, then runs
`self._locations[self._locations.index(old_coords)] = coords` — note the
right-hand side is the *offset* argument (shadowing), and a failed `.index`
lookup raises `ValueError` *after* the coordinate mutation.  The flag is
`true` when it raised. -/
def pointTranslate (s : PointStore) (i : ℕ) (off : List ℚ) : PointStore × Bool :=
  let old := s.coords.getD i []
  let newc := List.zipWith (fun a b => a + b) old off
  let coords' := s.coords.set i newc
  match firstIdx old s.locations with
  | none => ({ s with coords := coords' }, true)
  | some j => ({ s with coords := coords', locations := s.locations.set j off }, false)

/-- `Point.rotate(rotation, center)` specialised to `rotation = [0, 0, 0]`, the
only rotation exercised by the claims: each of the three axis blocks is guarded
by `if rotation[k]:` and skipped, leaving
`self._locations[self._locations.index(old_coords)] = self.coords[:]`, an
identity rewrite of the found registry slot (`ValueError` when absent). -/
def pointRotateZero (s : PointStore) (i : ℕ) : PointStore × Bool :=
  let old := s.coords.getD i []
  match firstIdx old s.locations with
  | none => (s, true)
  | some j => ({ s with locations := s.locations.set j old }, false)

/-- `point.translate` applied in sequence (a raised exception aborts the rest). -/
def transPtsSeq (p : PointStore) (idxs : List ℕ) (off : List ℚ) : PointStore × Bool :=
  match idxs with
  | [] => (p, false)
  | i :: rest =>
      let r := pointTranslate p i off
      if r.2 then (r.1, true) else transPtsSeq r.1 rest off

/-- `point.rotate([0,0,0], c)` applied in sequence. -/
def rotZeroPtsSeq (p : PointStore) (idxs : List ℕ) : PointStore × Bool :=
  match idxs with
  | [] => (p, false)
  | i :: rest =>
      let r := pointRotateZero p i
      if r.2 then (r.1, true) else rotZeroPtsSeq r.1 rest

/-- First index of a stored point pair connecting instances `i` and `j` in
either order: `Line.__new__`'s `if point_1 in points and point_2 in points`
with default (identity) object equality. -/
def findPairAux (i j : ℕ) : List (ℕ × ℕ) → ℕ → Option ℕ
  | [], _ => none
  | (a, b) :: rest, k =>
      if (a = i ∨ a = j) ∧ (b = i ∨ b = j) then some k
      else findPairAux i j rest (k + 1)

/-- The full geometry registry: points plus the `Line`, `Loop` and `Surface`
class registries and instances.  `linePairs` stores each line instance's point
pair in stored order, `loopLines` each loop's `lines` attribute (objects — the
transient negation flag is not part of the object list), `loopSeqs` the signed
`line_sequence`, `surfDefLoop` the class-level `_loops` registry entry and
`surfLoops` each surface's mutable `loops` list. -/
structure GeomStore where
  pts : PointStore
  linePairs : List (ℕ × ℕ)
  lineNums : List ℕ
  lineCurrent : ℕ
  loopLines : List (List ℕ)
  loopSeqs : List (List ℤ)
  loopNums : List ℕ
  loopCurrent : ℕ
  surfDefLoop : List ℕ
  surfLoops : List (List ℕ)
  surfNums : List ℕ
  surfCurrent : ℕ
deriving DecidableEq, Repr

/-- A fresh registry. -/
def emptyGeom : GeomStore := ⟨emptyPoints, [], [], 0, [], [], [], 0, [], [], [], 0⟩

/-- `Line(p1, p2)`: deduplicated on the unordered instance pair.  On a hit
`cls._inverse` is set (the returned flag) and `__init__` restores the stored
point order; `cls._inst_number` is set to the existing `instance.num` (the
line registry, unlike the point registry, does not clobber the number). -/
def makeLine (g : GeomStore) (i j : ℕ) : GeomStore × ℕ × Bool :=
  match findPairAux i j g.linePairs 0 with
  | some idx => (g, idx, true)
  | none =>
      let n := g.lineCurrent + 1
      ({ g with linePairs := g.linePairs ++ [(i, j)], lineNums := g.lineNums ++ [n],
                lineCurrent := n }, g.linePairs.length, false)

/-- `Loop(lines)`: the argument is the line list with per-reference negation
flags (`-line` sets the transient `opposite` flag on the shared object and
`line()` in `__init__` consumes it into `line_sequence`).  Deduplication
compares the object lists (`lines == used_lines`). -/
def makeLoop (g : GeomStore) (ls : List (ℕ × Bool)) : GeomStore × ℕ :=
  let objs := ls.map Prod.fst
  match firstIdx objs g.loopLines with
  | some idx => (g, idx)
  | none =>
      let seq := ls.map (fun p =>
        if p.2 then -((g.lineNums.getD p.1 0 : ℤ)) else (g.lineNums.getD p.1 0 : ℤ))
      let n := g.loopCurrent + 1
      ({ g with loopLines := g.loopLines ++ [objs], loopSeqs := g.loopSeqs ++ [seq],
                loopNums := g.loopNums ++ [n], loopCurrent := n }, g.loopLines.length)

/-- `Surface(loop)`: deduplicated on the defining loop; `self.loops = [loop]`. -/
def makeSurface (g : GeomStore) (lp : ℕ) : GeomStore × ℕ :=
  match firstIdx lp g.surfDefLoop with
  | some idx => (g, idx)
  | none =>
      let n := g.surfCurrent + 1
      ({ g with surfDefLoop := g.surfDefLoop ++ [lp], surfLoops := g.surfLoops ++ [[lp]],
                surfNums := g.surfNums ++ [n], surfCurrent := n }, g.surfDefLoop.length)

/-- `Surface.cut(other)`: `self.loops.extend(other.loops.copy())` (the
non-`Surface` argument `AttributeError` is handled by callers). -/
def surfaceCut (g : GeomStore) (s other : ℕ) : GeomStore :=
  { g with surfLoops := g.surfLoops.set s (g.surfLoops.getD s [] ++ g.surfLoops.getD other []) }

/-- `Line.translate`: `for point in self.points: point.translate(coords)`. -/
def lineTranslate (g : GeomStore) (li : ℕ) (off : List ℚ) : GeomStore × Bool :=
  let pr := g.linePairs.getD li (0, 0)
  let r := transPtsSeq g.pts [pr.1, pr.2] off
  ({ g with pts := r.1 }, r.2)

/-- `line.translate` over a list of lines, aborting on a raised exception. -/
def lineSeqTranslate (g : GeomStore) (ls : List ℕ) (off : List ℚ) : GeomStore × Bool :=
  match ls with
  | [] => (g, false)
  | li :: rest =>
      let r := lineTranslate g li off
      if r.2 then (r.1, true) else lineSeqTranslate r.1 rest off

/-- `Loop.translate`: `for line in self.lines: line.translate(coords)`. -/
def loopTranslate (g : GeomStore) (lp : ℕ) (off : List ℚ) : GeomStore × Bool :=
  lineSeqTranslate g (g.loopLines.getD lp []) off

/-- `loop.translate` over a list of loops, aborting on a raised exception. -/
def loopSeqTranslate (g : GeomStore) (lps : List ℕ) (off : List ℚ) : GeomStore × Bool :=
  match lps with
  | [] => (g, false)
  | lp :: rest =>
      let r := loopTranslate g lp off
      if r.2 then (r.1, true) else loopSeqTranslate r.1 rest off

/-- `Surface.translate`: `for loop in self.loops: loop.translate(coords)`. -/
def surfaceTranslate (g : GeomStore) (sf : ℕ) (off : List ℚ) : GeomStore × Bool :=
  loopSeqTranslate g (g.surfLoops.getD sf []) off

/-- The rotate analogue of `surfaceTranslate`, specialised to `[0, 0, 0]`
(`Surface.rotate` walks loops, then lines, then points). -/
def surfaceRotateZero (g : GeomStore) (sf : ℕ) : GeomStore × Bool :=
  go g ((g.surfLoops.getD sf []).foldl
    (fun acc lp => acc ++ g.loopLines.getD lp []) [])
where
  go (g : GeomStore) (ls : List ℕ) : GeomStore × Bool :=
    match ls with
    | [] => (g, false)
    | li :: rest =>
        let pr := g.linePairs.getD li (0, 0)
        let r := rotZeroPtsSeq g.pts [pr.1, pr.2]
        if r.2 then ({ g with pts := r.1 }, true) else go { g with pts := r.1 } rest

/-- One face's `face_points` accumulation in `TriSurface.translate`/`rotate`:
`face_points += [point for point in line.points if point not in face_points]`
over every line of every loop of the face (the comprehension filters against
the list as it was before the `+=`). -/
def facePoints (g : GeomStore) (sf : ℕ) : List ℕ :=
  (g.surfLoops.getD sf []).foldl (fun acc lp =>
    (g.loopLines.getD lp []).foldl (fun acc li =>
      let pr := g.linePairs.getD li (0, 0)
      acc ++ ([pr.1, pr.2].filter (fun p => ¬ p ∈ acc))) acc) []

/-- Keep the first occurrence of each element (a deterministic reading of
Python's `set(face_points)`, whose iteration order is unspecified; the set of
translated points does not depend on the order). -/
def dedupFirstAux : List ℕ → List ℕ → List ℕ
  | [], acc => acc.reverse
  | x :: xs, acc => if x ∈ acc then dedupFirstAux xs acc else dedupFirstAux xs (x :: acc)

/-- First-occurrence deduplication. -/
def dedupFirst (l : List ℕ) : List ℕ := dedupFirstAux l []

/-- `TriSurface.translate`: per face, collect `face_points`, translate
`list(set(face_points) - set(translated_point))` and record the translated
points; a raised exception aborts the walk. -/
def triTranslateGo (g : GeomStore) (faces : List ℕ) (translated : List ℕ) (off : List ℚ) :
    GeomStore × Bool :=
  match faces with
  | [] => (g, false)
  | f :: rest =>
      let todo := (dedupFirst (facePoints g f)).filter (fun p => ¬ p ∈ translated)
      let r := transPtsSeq g.pts todo off
      if r.2 then ({ g with pts := r.1 }, true)
      else triTranslateGo { g with pts := r.1 } rest (translated ++ todo) off

/-- `TriSurface.translate(coords)` over the faces of a multi-face shape. -/
def triSurfaceTranslate (g : GeomStore) (faces : List ℕ) (off : List ℚ) : GeomStore × Bool :=
  triTranslateGo g faces [] off

/-- The point instances reachable from the given faces (per-face `face_points`
collections, concatenated). -/
def reachablePts (g : GeomStore) (faces : List ℕ) : List ℕ :=
  (faces.map (fun f => facePoints g f)).flatten

/-- `Point(...)` performed on the full registry (only the point store changes). -/
def addPoint (g : GeomStore) (cs : List ℚ) : GeomStore × ℕ :=
  let r := makePoint g.pts cs
  ({ g with pts := r.1 }, r.2)

/-- `Box.create(dimensions, location)`: eight corner points, twelve edges, six
loops and six named faces, in source order. -/
def boxCreate (g0 : GeomStore) (dims loc : List ℚ) : GeomStore × List (String × ℕ) :=
  let d0 := dims.getD 0 0
  let d1 := dims.getD 1 0
  let d2 := dims.getD 2 0
  let l0 := loc.getD 0 0
  let l1 := loc.getD 1 0
  let l2 := loc.getD 2 0
  let (g, p1) := addPoint g0 [l0, l1, l2]
  let (g, p2) := addPoint g [l0 + d0, l1, l2]
  let (g, p3) := addPoint g [l0 + d0, l1 + d1, l2]
  let (g, p4) := addPoint g [l0, l1 + d1, l2]
  let (g, p5) := addPoint g [l0, l1, l2 + d2]
  let (g, p6) := addPoint g [l0 + d0, l1, l2 + d2]
  let (g, p7) := addPoint g [l0 + d0, l1 + d1, l2 + d2]
  let (g, p8) := addPoint g [l0, l1 + d1, l2 + d2]
  let (g, ln1, _) := makeLine g p1 p2
  let (g, ln2, _) := makeLine g p2 p3
  let (g, ln3, _) := makeLine g p4 p3
  let (g, ln4, _) := makeLine g p1 p4
  let (g, ln5, _) := makeLine g p5 p6
  let (g, ln6, _) := makeLine g p6 p7
  let (g, ln7, _) := makeLine g p8 p7
  let (g, ln8, _) := makeLine g p5 p8
  let (g, ln9, _) := makeLine g p1 p5
  let (g, ln10, _) := makeLine g p2 p6
  let (g, ln11, _) := makeLine g p3 p7
  let (g, ln12, _) := makeLine g p4 p8
  let (g, ll1) := makeLoop g [(ln1, false), (ln2, false), (ln3, true), (ln4, true)]
  let (g, ll2) := makeLoop g [(ln8, false), (ln7, false), (ln6, true), (ln5, true)]
  let (g, ll3) := makeLoop g [(ln4, false), (ln12, false), (ln8, true), (ln9, true)]
  let (g, ll4) := makeLoop g [(ln10, false), (ln6, false), (ln11, true), (ln2, true)]
  let (g, ll5) := makeLoop g [(ln9, false), (ln5, false), (ln10, true), (ln1, true)]
  let (g, ll6) := makeLoop g [(ln3, false), (ln11, false), (ln7, true), (ln12, true)]
  let (g, s1) := makeSurface g ll1
  let (g, s2) := makeSurface g ll2
  let (g, s3) := makeSurface g ll3
  let (g, s4) := makeSurface g ll4
  let (g, s5) := makeSurface g ll5
  let (g, s6) := makeSurface g ll6
  (g, [("bottom", s1), ("top", s2), ("front", s3), ("back", s4), ("right", s5), ("left", s6)])

/-- `Model._create_geometry_from_type` for `model_type == 'surface'` with the
default `facing_zero=True` and `rotation = [0, 0, 0]` (the only rotation the
claims exercise; `Point.rotate` skips every axis whose angle is zero).
Validation: all dimensions non-zero, or at most one non-zero dimension, is a
`ValueError`. -/
def createSurfaceGeometry (g0 : GeomStore) (dims loc : List ℚ) :
    Except String (GeomStore × ℕ) :=
  let d0 := dims.getD 0 0
  let d1 := dims.getD 1 0
  let d2 := dims.getD 2 0
  let l0 := loc.getD 0 0
  let l1 := loc.getD 1 0
  let l2 := loc.getD 2 0
  if dims.all (fun d => d ≠ 0) then
    .error "ValueError: Model type surface must be 2D. Check your dimensions"
  else if (dims.filter (fun d => d ≠ 0)).length ≤ 1 then
    .error "ValueError: Model type surface must be 2D. Check your dimensions"
  else
    let (g, p1) := addPoint g0 [l0, l1, l2]
    let (g, p2, p3, p4) :=
      if d0 = 0 then
        let (g, p2) := addPoint g [l0, l1, l2 + d2]
        let (g, p3) := addPoint g [l0, l1 + d1, l2 + d2]
        let (g, p4) := addPoint g [l0, l1 + d1, l2]
        (g, p2, p3, p4)
      else if d1 = 0 then
        let (g, p2) := addPoint g [l0 + d0, l1, l2]
        let (g, p3) := addPoint g [l0 + d0, l1, l2 + d2]
        let (g, p4) := addPoint g [l0, l1, l2 + d2]
        (g, p2, p3, p4)
      else
        let (g, p2) := addPoint g [l0, l1 + d1, l2]
        let (g, p3) := addPoint g [l0 + d0, l1 + d1, l2]
        let (g, p4) := addPoint g [l0 + d0, l1, l2]
        (g, p2, p3, p4)
    let (g, ln1, _) := makeLine g p1 p2
    let (g, ln2, _) := makeLine g p2 p3
    let (g, ln3, _) := makeLine g p3 p4
    let (g, ln4, _) := makeLine g p4 p1
    let (g, ll) := makeLoop g [(ln1, false), (ln2, false), (ln3, false), (ln4, false)]
    let (g, s) := makeSurface g ll
    let r := surfaceRotateZero g s
    if r.2 then .error "ValueError: list.index(x): x not in list"
    else .ok (r.1, s)

/-- `Box.cut_surface(other)`: its first statement after the `isinstance` check
is `other_x, other_y, other_z = other.get_used_coords()`, but
`primitives.Surface` defines no `get_used_coords` method (only `Box` in
`manipulator.py` does), so the call raises `AttributeError` before any face is
examined or mutated. -/
def boxCutSurface (g : GeomStore) (faces : List (String × ℕ)) (other : ℕ) :
    Except String (GeomStore × List (String × ℕ)) :=
  .error "AttributeError: 'Surface' object has no attribute 'get_used_coords'"

/-- The registry after `Box([3, 4, 2.5], [0, 0, 0])`, with its named faces. -/
def c6box : GeomStore × List (String × ℕ) := boxCreate emptyGeom [3, 4, 5/2] [0, 0, 0]

/-- The patch `Model('...', 'surface', [1.5, 0, 1.25], location=[0.75, 0, 0.625])`
built in the same registry. -/
def c6patch : Except String (GeomStore × ℕ) :=
  createSurfaceGeometry c6box.1 [3/2, 0, 5/4] [3/4, 0, 5/8]

/-- The result of `box.cut_surface(patch)` on the scenario. -/
def c6cut : Except String (GeomStore × List (String × ℕ)) :=
  match c6patch with
  | .ok r => boxCutSurface r.1 c6box.2 r.2
  | .error e => .error e

/-- `True` exactly on a raised cut. -/
def isCutErr : Except String (GeomStore × List (String × ℕ)) → Bool
  | .error _ => true
  | .ok _ => false

/-- The loop-list length of every surface in the registry after building the
scenario's box and patch (six box faces then the patch). -/
def c6loopLens : List ℕ :=
  match c6patch with
  | .ok r => r.1.surfLoops.map List.length
  | .error _ => []

/-- The C7 counterexample registry: the four corners of a unit square plus
three helper points placed where the corrupted `_locations` lookups of
`Point.translate` will find them, so the walk completes without raising. -/
def c7store : GeomStore × ℕ :=
  let (g, pa) := makePoint emptyGeom.pts [0, 0, 0] |> fun r => ({ emptyGeom with pts := r.1 }, r.2)
  let (g, pb) := addPoint g [1, 0, 0]
  let (g, pc) := addPoint g [1, 1, 0]
  let (g, pd) := addPoint g [0, 1, 0]
  let (g, _) := addPoint g [6, 5, 5]
  let (g, _) := addPoint g [6, 6, 5]
  let (g, _) := addPoint g [5, 6, 5]
  let (g, ln1, _) := makeLine g pa pb
  let (g, ln2, _) := makeLine g pb pc
  let (g, ln3, _) := makeLine g pc pd
  let (g, ln4, _) := makeLine g pd pa
  let (g, ll) := makeLoop g [(ln1, false), (ln2, false), (ln3, false), (ln4, false)]
  makeSurface g ll

/-- `Surface.translate([5, 5, 5])` on the C7 counterexample square. -/
def c7after : GeomStore × Bool := surfaceTranslate c7store.1 c7store.2 [5, 5, 5]

/-- State of the translate walk relative to the original instance coordinates
`orig` and the offset `off`: the points listed in `P` have had the offset
applied exactly once, all others are untouched, and every untouched point's
registry slot still holds its original coordinates (so its pending lookup
succeeds). -/
def TransInv (orig : List (List ℚ)) (off : List ℚ) (P : List ℕ) (p : PointStore) : Prop :=
  p.coords.length = orig.length
  ∧ p.locations.length = orig.length
  ∧ (∀ i, i ∉ P → p.coords[i]? = orig[i]?)
  ∧ (∀ i, i ∈ P → p.coords[i]? =
      (orig[i]?).map (fun c => List.zipWith (fun a b => a + b) c off))
  ∧ (∀ i, i ∉ P → p.locations[i]? = orig[i]?)

/-- A box whose eight corners are all distinct, used as the multi-face witness. -/
def c7box : GeomStore × List (String × ℕ) := boxCreate emptyGeom [1, 2, 3] [0, 0, 0]

/-- The face surfaces of the witness box, as a `TriSurface`'s face list. -/
def c7boxFaces : List ℕ := c7box.2.map Prod.snd

end Geometry

/-! ## Boundary dictionary codec: `openfoam/boundaries/boundary_conditions.py`

The regular expressions of `_parse_file` are re-implemented as deterministic
character-list parsers with the same matching behaviour on their inputs
(each quantified character class is disjoint from what may legally follow it,
so greedy maximal munch coincides with the backtracking semantics; the one
place where backtracking is observable — the optional `uniform` group — is
implemented as an explicit two-branch attempt). -/

namespace Codec

open Boundaries

/-- `BOUNDARY_NEXT_PLACEHOLDER = '// next'`. -/
def SENT : String := "// next"

/-- Python `\s` (the `\x0b`/`\x0c` cases written out). -/
def isWsChar (c : Char) : Bool :=
  c = ' ' ∨ c = '\t' ∨ c = '\n' ∨ c = '\r' ∨ c = '\x0b' ∨ c = '\x0c'

/-- Python `\w` on ASCII input: `[a-zA-Z0-9_]`. -/
def isWordChar (c : Char) : Bool := c.isAlphanum ∨ c = '_'

/-- The boundary-name character class `[a-zA-Z0-9_.-]`. -/
def isNameChar (c : Char) : Bool := c.isAlphanum ∨ c = '_' ∨ c = '.' ∨ c = '-'

/-- `'c' in line`. -/
def strHasChar (s : String) (c : Char) : Bool := s.toList.any (fun x => x = c)

/-- Python `str.strip()` (whitespace from both ends). -/
def pyStrip (s : String) : String :=
  String.mk (((s.toList.dropWhile isWsChar).reverse.dropWhile isWsChar).reverse)

/-- `line.strip()[:2] == '//'`. -/
def commentStart (s : String) : Bool := (pyStrip s).toList.take 2 = ['/', '/']

/-- Strip a literal text from the front, returning the rest. -/
def stripSeq (pat : String) (cs : List Char) : Option (List Char) :=
  if seqStarts pat.toList cs then some (cs.drop pat.toList.length) else none

/-- The numeric value of a digit run. -/
def digitsToNat (ds : List Char) : ℕ :=
  ds.foldl (fun n c => 10 * n + (c.toNat - '0'.toNat)) 0

/-- `str.isnumeric()` restricted to ASCII digits. -/
def strIsNumeric (s : String) : Bool := ¬ s.toList.isEmpty ∧ s.toList.all Char.isDigit

/-- The text matched by `NUMBER_PATTERN = [+-]?[0-9]+[.]?[0-9]*[e]?[+-]?[0-9]*`
together with the rest of the input. -/
def numParse (cs : List Char) : Option (List Char × List Char) :=
  let (sgn, r1) :=
    match cs with
    | '+' :: t => ([('+' : Char)], t)
    | '-' :: t => ([('-' : Char)], t)
    | _ => ([], cs)
  let d1 := r1.takeWhile Char.isDigit
  if d1.isEmpty then none
  else
    let r2 := r1.dropWhile Char.isDigit
    let (dot, r3) := match r2 with | '.' :: t => ([('.' : Char)], t) | _ => ([], r2)
    let d2 := r3.takeWhile Char.isDigit
    let r4 := r3.dropWhile Char.isDigit
    let (e, r5) := match r4 with | 'e' :: t => ([('e' : Char)], t) | _ => ([], r4)
    let (sg2, r6) :=
      match r5 with
      | '+' :: t => ([('+' : Char)], t)
      | '-' :: t => ([('-' : Char)], t)
      | _ => ([], r5)
    let d3 := r6.takeWhile Char.isDigit
    let r7 := r6.dropWhile Char.isDigit
    some (sgn ++ d1 ++ dot ++ d2 ++ e ++ sg2 ++ d3, r7)

/-- Python `float()` of a literal of the shape the codec reads:
`[+-]? digits [. digits]? [eE [+-]? digits]?`, as an exact rational.  Texts
that `NUMBER_PATTERN` accepts but `float()` rejects (a dangling `e` or a
trailing sign without exponent digits, e.g. `"12e"` or `"5-3"`) give `none`
(a `ValueError` at the call site).  Exotic forms (`".5"`, `inf`, `nan`) are
outside the inputs this codec meets and are also `none`. -/
def numToRat (cs : List Char) : Option ℚ :=
  let (sgn, r1) : ℚ × List Char :=
    match cs with
    | '+' :: t => (1, t)
    | '-' :: t => (-1, t)
    | _ => (1, cs)
  let d1 := r1.takeWhile Char.isDigit
  if d1.isEmpty then none
  else
    let r2 := r1.dropWhile Char.isDigit
    let (d2, r3) :=
      match r2 with
      | '.' :: t => (t.takeWhile Char.isDigit, t.dropWhile Char.isDigit)
      | _ => ([], r2)
    let mant : ℚ := (digitsToNat d1 : ℚ) + (digitsToNat d2 : ℚ) / (10 : ℚ) ^ d2.length
    match r3 with
    | [] => some (sgn * mant)
    | 'e' :: t =>
        let (pos, t1) : Bool × List Char :=
          match t with
          | '+' :: u => (true, u)
          | '-' :: u => (false, u)
          | _ => (true, t)
        let d3 := t1.takeWhile Char.isDigit
        if d3.isEmpty ∨ ¬ (t1.dropWhile Char.isDigit).isEmpty then none
        else some (sgn * mant *
          (if pos then (10 : ℚ) ^ digitsToNat d3 else 1 / (10 : ℚ) ^ digitsToNat d3))
    | 'E' :: t =>
        let (pos, t1) : Bool × List Char :=
          match t with
          | '+' :: u => (true, u)
          | '-' :: u => (false, u)
          | _ => (true, t)
        let d3 := t1.takeWhile Char.isDigit
        if d3.isEmpty ∨ ¬ (t1.dropWhile Char.isDigit).isEmpty then none
        else some (sgn * mant *
          (if pos then (10 : ℚ) ^ digitsToNat d3 else 1 / (10 : ℚ) ^ digitsToNat d3))
    | _ => none

/-- `float()` on a stripped line of a multi-line list body. -/
def pyFloatQ (s : String) : Option ℚ := numToRat s.toList

/-- `VECTOR_PATTERN = \(\s*(NUM)\s+(NUM)\s+(NUM)\s*\)\s*` matched at the head
of the input: the three captured number texts, the consumed text and the rest. -/
def vecParse (cs : List Char) :
    Option ((List Char × List Char × List Char) × List Char × List Char) :=
  match cs with
  | '(' :: r1 =>
      let r2 := r1.dropWhile isWsChar
      match numParse r2 with
      | none => none
      | some (n1, r3) =>
          if (r3.takeWhile isWsChar).isEmpty then none
          else
            match numParse (r3.dropWhile isWsChar) with
            | none => none
            | some (n2, r4) =>
                if (r4.takeWhile isWsChar).isEmpty then none
                else
                  match numParse (r4.dropWhile isWsChar) with
                  | none => none
                  | some (n3, r5) =>
                      match r5.dropWhile isWsChar with
                      | ')' :: r7 =>
                          let r8 := r7.dropWhile isWsChar
                          some ((n1, n2, n3), cs.take (cs.length - r8.length), r8)
                      | _ => none
  | _ => none

/-- `vector_pattern.search(val)`: leftmost occurrence, returning the three
captured number texts. -/
def vecScan : List Char → Option (List Char × List Char × List Char)
  | [] => none
  | c :: r =>
      match vecParse (c :: r) with
      | some (g, _, _) => some g
      | none => vecScan r

/-- `;` followed by the required tail: `\s*$` for the anchored parameter
pattern (`strict`), anything for the unanchored internal-field pattern. -/
def endOk (strict : Bool) : List Char → Bool
  | ';' :: r2 => if strict then r2.all isWsChar else true
  | _ => false

/-- The value alternation `(\$?\w*|NUM\(?\)?|VEC)` followed by `;` (and, when
`strict`, trailing whitespace to the end), returning the captured group text.
The alternatives are tried in the regex's order. -/
def valueGroup (strict : Bool) (cs : List Char) : Option String :=
  (let (d, r1) : List Char × List Char :=
      match cs with
      | '$' :: t => (['$'], t)
      | _ => ([], cs)
    let w := r1.takeWhile isWordChar
    let r2 := r1.dropWhile isWordChar
    if endOk strict r2 then some (String.mk (d ++ w)) else none)
  <|>
  (match numParse cs with
    | some (n, r) =>
        let (p1, r2) : List Char × List Char :=
          match r with
          | '(' :: t => (['('], t)
          | _ => ([], r)
        let (p2, r3) : List Char × List Char :=
          match r2 with
          | ')' :: t => ([')'], t)
          | _ => ([], r2)
        if endOk strict r3 then some (String.mk (n ++ p1 ++ p2)) else none
    | none => none)
  <|>
  (match vecParse cs with
    | some (_, txt, rest) => if endOk strict rest then some (String.mk txt) else none
    | none => none)

/-- `\s*(uniform)?\s*(value-group);…` starting right after the matched name:
first the branch with the literal `uniform`, then — only when the rest fails —
the branch where the optional group matches nothing. -/
def uniformAndValue (strict : Bool) (cs : List Char) : Option (Bool × String) :=
  let r := cs.dropWhile isWsChar
  match stripSeq "uniform" r with
  | some r1 =>
      match valueGroup strict (r1.dropWhile isWsChar) with
      | some g3 => some (true, g3)
      | none => (valueGroup strict r).map (fun g3 => (false, g3))
  | none => (valueGroup strict r).map (fun g3 => (false, g3))

/-- `parameter_pattern`: `^\s*(\w+)\s*(uniform)?\s*(…);\s*$`, returning
(name, uniform present, group-3 text). -/
def paramMatch (s : String) : Option (String × Bool × String) :=
  let r := s.toList.dropWhile isWsChar
  let w := r.takeWhile isWordChar
  if w.isEmpty then none
  else (uniformAndValue true (r.dropWhile isWordChar)).map (fun p => (String.mk w, p.1, p.2))

/-- `internal_field_pattern`: `^\s*(internalField)\s*(uniform)?\s*(…);`
(searched, but anchored at the start; no end anchor). -/
def ifieldMatch (s : String) : Option (Bool × String) :=
  match stripSeq "internalField" (s.toList.dropWhile isWsChar) with
  | some r1 => uniformAndValue false r1
  | none => none

/-- `type_pattern`: `^\s*type\s*(\w*|\w*:*\w*);\s*$`. -/
def typeMatch (s : String) : Option String :=
  match stripSeq "type" (s.toList.dropWhile isWsChar) with
  | none => none
  | some r1 =>
      let r2 := r1.dropWhile isWsChar
      let w1 := r2.takeWhile isWordChar
      let r3 := r2.dropWhile isWordChar
      let cl := r3.takeWhile (fun c => c = ':')
      let r4 := r3.dropWhile (fun c => c = ':')
      let w2 := r4.takeWhile isWordChar
      match r4.dropWhile isWordChar with
      | ';' :: r6 => if r6.all isWsChar then some (String.mk (w1 ++ cl ++ w2)) else none
      | _ => none

/-- `name_pattern`: `^ *([a-zA-Z][a-zA-Z0-9_.-]*|"\.\*")\s*$`. -/
def nameMatch (s : String) : Option String :=
  match s.toList.dropWhile (fun c => c = ' ') with
  | '"' :: '.' :: '*' :: '"' :: r2 =>
      if r2.all isWsChar then some "\".*\"" else none
  | c :: cs =>
      if c.isAlpha then
        if (cs.dropWhile isNameChar).all isWsChar then
          some (String.mk (c :: cs.takeWhile isNameChar))
        else none
      else none
  | [] => none

/-- The tail of `list_pattern` after the matched field name:
`\s*((nonuniform)?\s+List<(scalar|vector)>) *(\d*)?`. -/
def listAfter (nm : String) (r : List Char) : Option (String × Option ℕ) :=
  let k := (r.takeWhile isWsChar).length
  let r1 := r.dropWhile isWsChar
  let afterList (r2 : List Char) : Option (String × Option ℕ) :=
    match stripSeq "List<" r2 with
    | none => none
    | some r3 =>
        match (stripSeq "scalar" r3) <|> (stripSeq "vector" r3) with
        | none => none
        | some r4 =>
            match r4 with
            | '>' :: r5 =>
                let ds := (r5.dropWhile (fun c => c = ' ')).takeWhile Char.isDigit
                some (nm, if ds.isEmpty then none else some (digitsToNat ds))
            | _ => none
  match stripSeq "nonuniform" r1 with
  | some r2 =>
      (if (r2.takeWhile isWsChar).isEmpty then none
       else afterList (r2.dropWhile isWsChar))
      <|> (if k = 0 then none else afterList r1)
  | none => if k = 0 then none else afterList r1

/-- `list_pattern` tried at one position: the alternation
`(internalField|value)` in order, then `listAfter`. -/
def listAt (cs : List Char) : Option (String × Option ℕ) :=
  match stripSeq "internalField" cs with
  | some r => listAfter "internalField" r
  | none =>
      match stripSeq "value" cs with
      | some r => listAfter "value" r
      | none => none

/-- `list_pattern.search(line)`: leftmost match. -/
def listScan : List Char → Option (String × Option ℕ)
  | [] => none
  | c :: r => (listAt (c :: r)) <|> listScan r

/-- `list_pattern.search(line)` on a string. -/
def listMatch (s : String) : Option (String × Option ℕ) := listScan s.toList

/-- The inline list pattern `\(` `({NUM}) *`×n `\)` tried at one position:
the `n` captured number texts. -/
def inlineAt (cs : List Char) (n : ℕ) : Option (List (List Char)) :=
  match cs with
  | '(' :: r => go n r []
  | _ => none
where
  go : ℕ → List Char → List (List Char) → Option (List (List Char))
    | 0, r, acc => match r with | ')' :: _ => some acc.reverse | _ => none
    | k + 1, r, acc =>
        match numParse r with
        | some (txt, r1) => go k (r1.dropWhile (fun c => c = ' ')) (txt :: acc)
        | none => none

/-- `inline_list_pattern.search(line)`: leftmost match. -/
def inlineScan (n : ℕ) : List Char → Option (List (List Char))
  | [] => none
  | c :: r => (inlineAt (c :: r) n) <|> inlineScan n r

/-- `float()` over the matched number texts (`ValueError` when any fails). -/
def ratsOf : List (List Char) → Option (List ℚ)
  | [] => some []
  | t :: ts =>
      match numToRat t, ratsOf ts with
      | some q, some qs => some (q :: qs)
      | _, _ => none

/-- One entry of a parsed boundary dictionary: a boundary object (possibly the
`None` placeholder), a bare value (an averaged list or a list-body value), or
the `internalField` sub-dict. -/
inductive BdEntry where
  | entInst (b : Option BInst)
  | entVal (v : Val)
  | entIF (d : List (String × Val))
deriving DecidableEq, Repr

/-- The parsed dictionary: keys are the Python dict keys, which can be the
string name, `'internalField'`, a list name — or `None` (the reset value of
the `name` variable). -/
abbrev Bdict := List (Option String × BdEntry)

/-- Python dict update on the parsed dictionary. -/
def bdictUpd (d : Bdict) (k : Option String) (v : BdEntry) : Bdict :=
  if d.any (fun p => p.1 = k) then d.map (fun p => if p.1 = k then (k, v) else p)
  else d ++ [(k, v)]

/-- Python dict lookup on the parsed dictionary. -/
def bdictGet (d : Bdict) (k : Option String) : Option BdEntry :=
  (d.find? (fun p => p.1 = k)).map Prod.snd

/-- Update of `self._file_lines`. -/
def flUpd (d : List (Option String × ℕ)) (k : Option String) (v : ℕ) :
    List (Option String × ℕ) :=
  if d.any (fun p => p.1 = k) then d.map (fun p => if p.1 = k then (k, v) else p)
  else d ++ [(k, v)]

/-- Lookup in `self._file_lines`. -/
def flGet (d : List (Option String × ℕ)) (k : Option String) : Option ℕ :=
  (d.find? (fun p => p.1 = k)).map Prod.snd

/-- The loop state of `_parse_file`, plus the accumulating `new_lines`. -/
structure PState where
  placeholder_found : Bool
  end_reached : Bool
  broke : Bool
  boundaries_found : Bool
  new_boundary : Bool
  list_found : Bool
  list_start_found : Bool
  list_name : String
  bname : Option String
  num_of_lines : ℕ
  cls : Option BInst
  bdict : Bdict
  flines : List (Option String × ℕ)
  acc : List String
deriving DecidableEq, Repr

/-- The state at loop entry (`name = ''`, `new_boundary = True`, …), with the
caller's `boundary_dict` and `_file_lines`. -/
def initPState (bdict0 : Bdict) (flines0 : List (Option String × ℕ)) : PState :=
  ⟨false, false, false, false, true, false, false, "", some "", 0, none, bdict0, flines0, []⟩

/-- Python truthiness of the `name` variable (`''` and `None` are falsy). -/
def pyTruthyName : Option String → Bool
  | none => false
  | some s => s ≠ ""

/-- The value stored for a matched group-3 text: `float` when `isnumeric`
(digits only), the raw text otherwise. -/
def g3Val (g3 : String) : Val :=
  if strIsNumeric g3 then .vfloat (digitsToNat g3.toList : ℚ) else .vstr g3

/-- `if name: cls_instance.__dict__.update({key: v}) else boundary_dict[key] = v`. -/
def storeParsed (st : PState) (key : String) (v : Val) : Except String PState :=
  if pyTruthyName st.bname then
    match st.cls with
    | none => .error "AttributeError: 'NoneType' object has no attribute '__dict__'"
    | some c => .ok { st with cls := some ⟨dictUpd c.battrs key v⟩ }
  else
    .ok { st with bdict := bdictUpd st.bdict (some key) (.entVal v) }

/-- `_get_class_by_boundary_type` succeeds exactly on the six membership
lists. -/
def knownBoundaryType (t : String) : Bool :=
  t ∈ GEOMETRIC_BOUNDARY_TYPES ∨ t ∈ GENERAL_BOUNDARY_TYPES ∨ t ∈ INLET_BOUNDARY_TYPES
    ∨ t ∈ OUTLET_BOUNDARY_TYPES ∨ t ∈ WALL_BOUNDARY_TYPES ∨ t ∈ COUPLED_BOUNDARY_TYPES

/-- Placeholder detection: `if BOUNDARY_NEXT_PLACEHOLDER in line`. -/
def phaseSent (st : PState) (line : String) : PState :=
  if strHasSub line SENT then { st with placeholder_found := true } else st

/-- The `internal_field_match` block.  When group 3 is empty the code reads
`internal_field_match.group(4).isnumeric()` with group 4 equal to `None`,
an `AttributeError`; otherwise the three dict updates amount to the
sub-dict `{'is_uniform': …, 'value': …}`. -/
def phaseIfield (st : PState) (line : String) : Except String PState :=
  match ifieldMatch line with
  | none => .ok st
  | some (uni, g3) =>
      if g3 = "" then .error "AttributeError: 'NoneType' object has no attribute 'isnumeric'"
      else
        let bd := bdictUpd st.bdict (some "internalField")
          (.entIF [("is_uniform", .vbool uni), ("value", g3Val g3)])
        .ok { st with bdict := bd }

/-- The `if list_found:` block (multi-line list bodies). -/
def phaseListBody (st : PState) (line : String) : Except String PState :=
  if st.list_found then
    if strHasChar line '(' then .ok { st with list_start_found := true }
    else if strHasChar line ')' then
      .ok { st with list_start_found := false, list_found := false }
    else if st.list_start_found then
      let val := pyStrip line
      match vecScan val.toList with
      | some g =>
          storeParsed st st.list_name
            (.vStrList [String.mk g.1, String.mk g.2.1, String.mk g.2.2])
      | none =>
          match pyFloatQ val with
          | some q => storeParsed st st.list_name (.vfloat q)
          | none => .error "ValueError: could not convert string to float"
    else .ok st
  else .ok st

/-- The `if list_match:` block: an inline fixed-length list is collapsed to
the average of its `N` literals; a bare header arms the multi-line state. -/
def phaseListHead (st : PState) (line : String) : Except String PState :=
  match listMatch line with
  | none => .ok st
  | some (nm, some n) =>
      match inlineScan n line.toList with
      | none => .error "AttributeError: 'NoneType' object has no attribute 'group'"
      | some txts =>
          match ratsOf txts with
          | none => .error "ValueError: could not convert string to float"
          | some vs =>
              if n = 0 then .error "ZeroDivisionError: division by zero"
              else storeParsed st nm (.vfloat (vs.sum / (n : ℚ)))
  | some (nm, none) => .ok { st with list_found := true, list_name := nm }

/-- The fall-through tail of the loop body: the `'boundaryField' in line`
check and the final `new_lines.append(line)`. -/
def finishLine (st : PState) (line : String) : PState :=
  let st := if strHasSub line "boundaryField" then { st with boundaries_found := true } else st
  { st with acc := st.acc ++ [line] }

/-- `name if name != '".*"' else 'other_boundaries'`. -/
def pyName (nm : String) : String := if nm = "\".*\"" then "other_boundaries" else nm

/-- The `if boundaries_found:` block, through to the end of the loop body. -/
def phaseBoundaries (st : PState) (line : String) : Except String PState :=
  if st.boundaries_found then
    if commentStart line ∧ ¬ strHasSub line SENT then
      .ok st
    else
      let st1 :=
        match nameMatch line with
        | some nm => { st with bname := some (pyName nm), new_boundary := true }
        | none => st
      if st1.new_boundary then
        if strHasChar line '}' then
          let fl := flUpd st1.flines st1.bname st1.num_of_lines
          let bd := bdictUpd st1.bdict st1.bname (.entInst st1.cls)
          .ok { st1 with
                  new_boundary := false
                  flines := fl
                  bdict := bd
                  bname := none
                  cls := none
                  num_of_lines := 0
                  acc := st1.acc ++ [line] }
        else
          let st2 := { st1 with num_of_lines := st1.num_of_lines + 1 }
          match typeMatch line with
          | some t =>
              if knownBoundaryType t then
                .ok (finishLine { st2 with cls := some ⟨[("type", Val.vstr t)]⟩ } line)
              else .error "ValueError: TODO error"
          | none =>
              match paramMatch line with
              | some pm =>
                  match st2.cls with
                  | none => .error "AttributeError: 'NoneType' object has no attribute '__dict__'"
                  | some c =>
                      let c1 : BInst :=
                        if pm.2.1 then ⟨dictUpd c.battrs "is_uniform" (.vbool true)⟩ else c
                      if pm.2.2 = "" then
                        .error "AttributeError: 'NoneType' object has no attribute 'isnumeric'"
                      else
                        .ok (finishLine
                          { st2 with cls := some ⟨dictUpd c1.battrs pm.1 (g3Val pm.2.2)⟩ } line)
              | none => .ok (finishLine st2 line)
      else
        if strHasChar line '}' then
          if ¬ st1.placeholder_found then
            .ok (finishLine { st1 with acc := st1.acc ++ [SENT ++ "\n"], end_reached := true } line)
          else
            .ok { st1 with broke := true }
        else .ok (finishLine st1 line)
  else .ok (finishLine st line)

/-- One iteration of the `for line in lines` loop of `_parse_file`. -/
def parseLine (st : PState) (line : String) : Except String PState :=
  if st.end_reached then .ok { st with acc := st.acc ++ [line] }
  else
    (phaseIfield (phaseSent st line) line).bind (fun st1 =>
      (phaseListBody st1 line).bind (fun st2 =>
        (phaseListHead st2 line).bind (fun st3 =>
          phaseBoundaries st3 line)))

/-- The whole loop (`break` drops the remaining lines). -/
def runParse (st : PState) : List String → Except String PState
  | [] => .ok st
  | l :: ls =>
      if st.broke then .ok st
      else (parseLine st l).bind (fun st' => runParse st' ls)

/-- The result of `_parse_file`: the final loop state, the on-disk lines after
the call, and whether the file was rewritten. -/
structure ParseOut where
  st : PState
  fileLines : List String
  wrote : Bool
deriving DecidableEq, Repr

/-- `_parse_file(filepath, boundary_dict, add_placeholder)`: parse the lines
and rewrite the file with `new_lines` exactly when no placeholder was found
and `add_placeholder` is set. -/
def parse_file (lines : List String) (bdict0 : Bdict)
    (flines0 : List (Option String × ℕ)) (add_placeholder : Bool) :
    Except String ParseOut :=
  (runParse (initPState bdict0 flines0) lines).map (fun st =>
    if ¬ st.placeholder_found ∧ add_placeholder then ⟨st, st.acc, true⟩
    else ⟨st, lines, false⟩)

/-- The state of a `BoundaryConditionBase` object that the add/remove claims
touch: `self.initial`, the dynamically assigned boundary attributes of
`self.__dict__`, `self._file_lines`, and the on-disk file as lines. -/
structure CodecState where
  initial : Bdict
  attrs : List (String × BInst)
  flines : List (Option String × ℕ)
  fileLines : List String
deriving DecidableEq, Repr

/-- Update of the dynamic attributes (`self.__dict__.update({name: …})`). -/
def attrUpd (d : List (String × BInst)) (k : String) (v : BInst) : List (String × BInst) :=
  if d.any (fun p => p.1 = k) then d.map (fun p => if p.1 = k then (k, v) else p)
  else d ++ [(k, v)]

/-- Python `str(dict)` of the `internalField` sub-dict (best effort; no
theorem renders one). -/
def pyDictStr (d : List (String × Val)) : String :=
  "\x7b" ++ String.intercalate ", " (d.map (fun p => "'" ++ p.1 ++ "': " ++ pyStr p.2)) ++ "\x7d"

/-- `str(boundary)` on whatever `self.initial[name]` holds. -/
def renderEntry : BdEntry → String
  | .entInst (some b) => renderBoundary b
  | .entInst none => ""          -- guarded by `is not None`, never rendered
  | .entVal v => pyStr v
  | .entIF d => pyDictStr d

/-- `str.replace` with a single-character pattern (the codec only replaces
`'\n'`). -/
def replaceChar (c : Char) (rep : String) (s : String) : String :=
  String.join (s.toList.map (fun x => if x = c then rep else String.mk [x]))

/-- `boundary_data.count('\n')`. -/
def countNl (s : String) : ℕ := (s.toList.filter (fun c => c = '\n')).length

/-- The insertion walk of `_add_boundary_to_file` (lines 256-264): before every
line containing the placeholder, append a bare newline when the previous
original line (with Python's `-1` wraparound at index 0) does not start with
`'\n'` — indexing `[0]` of an empty previous line raises — then the rendered
block.  Returns the new lines and whether a placeholder was seen. -/
def addWalk (bdata : String) (allLines : List String) : Except String (List String × Bool) :=
  go 0 allLines [] false
where
  go (idx : ℕ) : List String → List String → Bool → Except String (List String × Bool)
    | [], acc, found => .ok (acc, found)
    | l :: rest, acc, found =>
        if strHasSub l SENT then
          let prev := if idx = 0 then allLines.getLastD "" else allLines.getD (idx - 1) ""
          match prev.toList with
          | [] => .error "IndexError: string index out of range"
          | pc :: _ =>
              let acc := if pc ≠ '\n' then acc ++ ["\n"] else acc
              go (idx + 1) rest (acc ++ [bdata ++ "\n", l]) true
        else go (idx + 1) rest (acc ++ [l]) found

/-- `BoundaryConditionBase._add_boundary_to_file(name)`: renders
`self.initial[name]` (a `KeyError` when the name was never parsed into
`initial`), re-indents it, inserts it before the placeholder line, and only
then writes; a missing placeholder raises without writing. -/
def add_boundary_to_file (c : CodecState) (name : String) : Except String CodecState :=
  match bdictGet c.initial (some name) with
  | none => .error "KeyError"
  | some e =>
      match e with
      | .entInst none => .ok c
      | _ =>
          let bd0 := renderEntry e
          let bd1 := replaceChar '\n' ("\n" ++ "    ") bd0
          let nm := if name = "other_boundaries" then "\".*\"" else name
          let bdata := "    " ++ nm ++ bd1
          match addWalk bdata c.fileLines with
          | .error msg => .error msg
          | .ok (nl, found) =>
              if ¬ found then
                .error "Exception: Error adding boundary to file: placeholder not detected"
              else
                .ok { c with fileLines := nl, flines := flUpd c.flines (some nm) (countNl bdata) }

/-- The deletion walk of `_remove_boundary_from_file` (lines 276-283): on the
first line containing `f'{name}\n'`, pop the previously accumulated line
(Python `new_lines.pop(idx - 1)`, which raises on an empty accumulator), then
swallow `num` lines starting with the current one. -/
def removeWalk (name : String) : List String → List String → Bool → ℕ →
    Except String (List String)
  | [], acc, _, _ => .ok acc
  | l :: rest, acc, found, num =>
      if ¬ found ∧ strHasSub l (name ++ "\n") then
        if acc.isEmpty then .error "IndexError: pop index out of range"
        else
          match num with
          | 0 => removeWalk name rest (acc.dropLast ++ [l]) true 0
          | k + 1 => removeWalk name rest acc.dropLast true k
      else
        if found ∧ num ≠ 0 then removeWalk name rest acc true (num - 1)
        else removeWalk name rest (acc ++ [l]) found num

/-- `BoundaryConditionBase._remove_boundary_from_file(name)`: uses the line
count recorded in `self._file_lines` (a `KeyError` when absent). -/
def remove_boundary_from_file (c : CodecState) (name : String) : Except String CodecState :=
  match flGet c.flines (some name) with
  | none => .error "KeyError"
  | some k =>
      (removeWalk name c.fileLines [] false (k + 1)).map
        (fun nl => { c with fileLines := nl })

/-- `BoundaryConditionBase.add_initial_boundary(name, boundary_type, **kwargs)`:
removes an existing boundary of the same name, constructs the variant, stores
it in `self.__dict__` — *not* in `self.initial` — and then calls
`_add_boundary_to_file(name)`, which reads `self.initial[name]`. -/
def add_initial_boundary (c : CodecState) (name btype : String) (kw : BKwargs) :
    Except String CodecState :=
  (if (bdictGet c.initial (some name)).isSome then remove_boundary_from_file c name
   else .ok c).bind (fun c =>
    (constructBoundary btype kw).bind (fun inst =>
      add_boundary_to_file { c with attrs := attrUpd c.attrs name inst } name))

/-! ### Well-formed dictionary files

The spec's file grammar (a `FoamFile` header, one `boundaryField { … }`
dictionary holding named patch blocks, the one-time sentinel marker and the
`#includeEtc` line, then the rest of the file) is formalised as a structural
decomposition `WFFile` together with per-line conditions stating which of the
parser's patterns each line may answer to.  The conditions are phrased over
the source-derived matchers (`ifieldMatch`, `listMatch`, `nameMatch`,
`typeMatch`, `paramMatch`, `commentStart`), so a line is "well formed" exactly
when the embedded parser treats it the way the grammar position demands. -/

/-- `BOUNDARY_NEXT_PLACEHOLDER in line`. -/
def hasSent (l : String) : Bool := strHasSub l SENT

/-- The `internal_field_match` block does not crash on this line: either no
match, or the matched value group is non-empty. -/
def ifieldOkB (l : String) : Bool :=
  match ifieldMatch l with
  | none => true
  | some (_, g3) => g3 ≠ ""

/-- The `list_match` block neither arms the multi-line list state nor crashes:
either no match, or an inline fixed-length list whose `N` literals are all
present and parse as numbers, with `N ≠ 0`. -/
def listOkB (l : String) : Bool :=
  match listMatch l with
  | none => true
  | some (_, none) => false
  | some (_, some n) =>
      (n != 0) &&
      (match inlineScan n l.toList with
       | none => false
       | some txts => (ratsOf txts).isSome)

/-- The line is not dropped by the comment filter (`//`-comments that do not
hold the sentinel are skipped inside `boundaryField`). -/
def noComment (l : String) : Bool := !(commentStart l && !hasSent l)

/-- A line before `boundaryField`: phases cannot crash, and the trigger word
does not occur. -/
def headerOkB (l : String) : Bool :=
  ifieldOkB l && listOkB l && !strHasSub l "boundaryField"

/-- The `boundaryField` trigger line itself. -/
def bfOkB (l : String) : Bool :=
  ifieldOkB l && listOkB l && strHasSub l "boundaryField"

/-- An opening-brace line (of `boundaryField` or of a patch block): inert for
every pattern, no `}`, not a comment. -/
def braceOkB (l : String) : Bool :=
  ifieldOkB l && (listMatch l).isNone && !strHasChar l '}' && noComment l &&
  (nameMatch l).isNone && (typeMatch l).isNone && (paramMatch l).isNone

/-- A patch-name line: answers `name_pattern` and nothing else. -/
def nameOkB (l : String) : Bool :=
  ifieldOkB l && (listMatch l).isNone && !strHasChar l '}' && noComment l &&
  (nameMatch l).isSome && (typeMatch l).isNone && (paramMatch l).isNone

/-- A `type <known>;` line: answers `type_pattern` with a registered type. -/
def typeOkB (l : String) : Bool :=
  ifieldOkB l && (listMatch l).isNone && !strHasChar l '}' && noComment l &&
  (nameMatch l).isNone &&
  (match typeMatch l with
   | some t => knownBoundaryType t
   | none => false)

/-- An attribute line of a patch: a `parameter_pattern` match with a non-empty
value group, or a line matching nothing at all. -/
def attrOkB (l : String) : Bool :=
  ifieldOkB l && listOkB l && !strHasChar l '}' && noComment l &&
  (nameMatch l).isNone && (typeMatch l).isNone &&
  (match paramMatch l with
   | some pm => pm.2.2 != ""
   | none => true)

/-- A closing-brace line. -/
def closeOkB (l : String) : Bool :=
  ifieldOkB l && (listMatch l).isNone && noComment l &&
  (nameMatch l).isNone && strHasChar l '}'

/-- A line between the last patch and the closing brace of `boundaryField`
(the sentinel or an `#includeEtc` line): inert, no `}`, and not a skipped
comment. -/
def midOkB (l : String) : Bool :=
  ifieldOkB l && listOkB l && !strHasChar l '}' && noComment l && (nameMatch l).isNone

/-- One named patch block of `boundaryField`. -/
structure WFPatch where
  nameLn : String
  openLn : String
  typeLn : String
  attrs : List String
  closeLn : String
deriving DecidableEq, Repr

def WFPatch.linesOf (p : WFPatch) : List String :=
  [p.nameLn, p.openLn, p.typeLn] ++ p.attrs ++ [p.closeLn]

def patchOkB (p : WFPatch) : Bool :=
  nameOkB p.nameLn && braceOkB p.openLn && typeOkB p.typeLn &&
  p.attrs.all attrOkB && closeOkB p.closeLn

/-- A well-formed dictionary file, as the spec's grammar decomposes it:
header, the `boundaryField` line, its opening brace, the patch blocks, the
trailing lines inside the dictionary, its closing brace, and whatever
follows. -/
structure WFFile where
  header : List String
  bfLine : String
  openLn : String
  patches : List WFPatch
  mid : List String
  closeLn : String
  footer : List String
deriving DecidableEq, Repr

/-- Everything the parser walks through before the closing brace of
`boundaryField`. -/
def WFFile.preLines (f : WFFile) : List String :=
  f.header ++ [f.bfLine, f.openLn] ++ (f.patches.map WFPatch.linesOf).flatten ++ f.mid

def WFFile.linesOf (f : WFFile) : List String :=
  f.preLines ++ [f.closeLn] ++ f.footer

/-- The whole-file well-formedness condition.  At least one patch block is
required: the file's own closing brace would otherwise play the part of a
patch close and the sentinel branch would never be reached. -/
def WFFile.wf (f : WFFile) : Bool :=
  f.header.all headerOkB && bfOkB f.bfLine && braceOkB f.openLn &&
  !f.patches.isEmpty && f.patches.all patchOkB && f.mid.all midOkB &&
  closeOkB f.closeLn

/-- The phases that run on every line before the `boundaries_found` block:
placeholder detection, the internal-field match, the list body and the list
header. -/
def prePhases (st : PState) (l : String) : Except String PState :=
  (phaseIfield (phaseSent st l) l).bind (fun s1 =>
    (phaseListBody s1 l).bind (fun s2 => phaseListHead s2 l))

/-- A concrete well-formed file for the round-trip scenario; `withSent` puts
the sentinel line inside the dictionary. -/
def c3file (withSent : Bool) : WFFile where
  header := ["FoamFile\n", "\x7b\n", "    version     2.0;\n", "    class       volScalarField;\n",
    "    object      T;\n", "\x7d\n", "\n", "dimensions      [0 0 0 1 0 0 0];\n", "\n",
    "internalField   uniform 293.15;\n", "\n"]
  bfLine := "boundaryField\n"
  openLn := "\x7b\n"
  patches := [⟨"    inlet\n", "    \x7b\n", "        type            fixedValue;\n",
    ["        value           uniform 300;\n"], "    \x7d\n"⟩,
    ⟨"    walls\n", "    \x7b\n", "        type            zeroGradient;\n", [], "    \x7d\n"⟩]
  mid := (if withSent then ["// next\n"] else []) ++
    ["    #includeEtc \"caseDicts/setConstraintTypes\"\n"]
  closeLn := "\x7d\n"
  footer := ["\n", "// ************************* //\n"]

/-- A freshly created codec: nothing parsed into `initial` yet, the on-disk
file holding a minimal `boundaryField` with the placeholder. -/
def c1state : CodecState :=
  ⟨[], [], [], ["boundaryField\n", "\x7b\n", "// next\n",
    "    #includeEtc \"caseDicts/setConstraintTypes\"\n", "\x7d\n"]⟩

/-- The inline-list line of the C9 witness. -/
def c9line : String := "internalField nonuniform List<scalar> 4 (1 1 2 6);\n"

end Codec

end Wop

/- `Batteries` marks the rational operations `@[irreducible]`, which blocks the
elaborator-side evaluation performed by `decide`/`rfl` on the concrete
scenarios below (the kernel itself reduces them fine). -/
attribute [local semireducible] Rat.add Rat.mul Rat.inv Rat.sub

namespace Wop

/-! ## Theorems about the blockmesh embedding -/

namespace BlockMesh

/-- Closed form of the slope computed by `_calculate_quality_coefficients`. -/
theorem quality_a_eq (minBS maxBS : ℚ) : quality_a minBS maxBS = (minBS - maxBS) / 100 := by
  simp only [quality_a, percents, sizeValues, sum_of_mult, percents_sq_sum, percents_sum_sq,
    List.zipWith, List.sum_cons, List.sum_nil, List.map, List.length]
  ring

/-- Closed form of the intercept computed by `_calculate_quality_coefficients`:
it is `maxBS`, the block size assigned to quality 0. -/
theorem quality_b_eq (minBS maxBS : ℚ) : quality_b minBS maxBS = maxBS := by
  simp only [quality_b, percents, sizeValues, sum_of_mult, percents_sq_sum, percents_sum_sq,
    List.zipWith, List.sum_cons, List.sum_nil, List.map, List.length]
  ring

/-- Closed form of the least-squares slope over the three calibration
points. -/
theorem lsqSlope_eq (minBS maxBS : ℚ) : lsqSlope minBS maxBS = (minBS - maxBS) / 100 := by
  simp only [lsqSlope, percents, sizeValues, List.zipWith, List.sum_cons,
    List.sum_nil, List.map, List.length]
  norm_num
  ring

/-- Closed form of the least-squares intercept over the three calibration
points: it is `maxBS`, the block size the fit assigns to quality 0. -/
theorem lsqIntercept_eq (minBS maxBS : ℚ) : lsqIntercept minBS maxBS = maxBS := by
  simp only [lsqIntercept, lsqSlope, percents, sizeValues, List.zipWith, List.sum_cons,
    List.sum_nil, List.map, List.length]
  norm_num
  ring

end BlockMesh

/-- C5: the coefficients `a`, `b` computed by `_calculate_quality_coefficients`
equal the least-squares linear-regression fit of the three calibration points
`(0, maxBlockSize)`, `(50, avgBlockSize)`, `(100, minBlockSize)` — despite the
confusingly swapped variable names, `percents_sq_sum` holds the square of the
sum and `percents_sum_sq` the sum of the squares, and each appears where the
regression formulas need it.  In particular `blockSize(0) = maxBlockSize` and
`blockSize(100) = minBlockSize`, and for an in-range quality every registered
block's per-axis cell count is `floor(axisExtent / (a*q + b))`. -/
theorem C5_quality_regression (s : BlockMesh.BlockMeshDict)
    (hq0 : 0 ≤ s.mesh_quality) (hq1 : s.mesh_quality ≤ 100) :
    BlockMesh.quality_a s.min_block_size s.max_block_size
        = BlockMesh.lsqSlope s.min_block_size s.max_block_size
    ∧ BlockMesh.quality_b s.min_block_size s.max_block_size
        = BlockMesh.lsqIntercept s.min_block_size s.max_block_size
    ∧ BlockMesh.blockSizeAt s.min_block_size s.max_block_size 0 = s.max_block_size
    ∧ BlockMesh.blockSizeAt s.min_block_size s.max_block_size 100 = s.min_block_size
    ∧ (BlockMesh.calcMeshQuality s).1.blocks
        = s.blocks.map (fun b => { b with cells_in_direction := b.dims.map (fun d =>
            BlockMesh.cellsPerAxis s.min_block_size s.max_block_size s.mesh_quality d) }) := by
  refine ⟨?_, ?_, ?_, ?_, ?_⟩
  · rw [BlockMesh.quality_a_eq, BlockMesh.lsqSlope_eq]
  · rw [BlockMesh.quality_b_eq, BlockMesh.lsqIntercept_eq]
  · rw [BlockMesh.blockSizeAt, BlockMesh.quality_a_eq, BlockMesh.quality_b_eq]; ring
  · rw [BlockMesh.blockSizeAt, BlockMesh.quality_a_eq, BlockMesh.quality_b_eq]; ring
  · have hc : ¬ (0 > s.mesh_quality ∨ s.mesh_quality > 100) := by
      push_neg
      exact ⟨hq0, hq1⟩
    simp [BlockMesh.calcMeshQuality, BlockMesh.calcQualityCoefficients, BlockMesh.calcMesh,
      BlockMesh.cellsPerAxis, BlockMesh.blockSizeAt, hc]

/-- C5 evaluated at the default sizes `min = 0.1`, `max = 0.7`, quality 50 and
one registered block of dimensions `[3, 4, 2.5]`. -/
theorem C5_witness :
    ((0 : ℚ) ≤ 50 ∧ (50 : ℚ) ≤ 100)
    ∧ (BlockMesh.quality_a (1/10) (7/10) = BlockMesh.lsqSlope (1/10) (7/10)
       ∧ BlockMesh.quality_b (1/10) (7/10) = BlockMesh.lsqIntercept (1/10) (7/10)
       ∧ BlockMesh.blockSizeAt (1/10) (7/10) 0 = 7/10
       ∧ BlockMesh.blockSizeAt (1/10) (7/10) 100 = 1/10
       ∧ (BlockMesh.calcMeshQuality ⟨50, 1/10, 7/10, 2/5, 0, 0, 0,
            [⟨[3, 4, 5/2], [2, 3, 2]⟩]⟩).1.blocks
           = ([⟨[3, 4, 5/2], [2, 3, 2]⟩] : List BlockMesh.BMBlock).map (fun b =>
               { b with cells_in_direction := b.dims.map (fun d =>
                   BlockMesh.cellsPerAxis (1/10) (7/10) 50 d) })) :=
  ⟨⟨by norm_num, by norm_num⟩,
   C5_quality_regression ⟨50, 1/10, 7/10, 2/5, 0, 0, 0, [⟨[3, 4, 5/2], [2, 3, 2]⟩]⟩
     (by norm_num) (by norm_num)⟩

/-- C8: for a block with non-negative axis extent, the per-axis cell count
computed by `_calculate_mesh` at quality 100 is at least the one at quality 50,
which is at least the one at quality 0 (the hypotheses hold for the default
sizes `0.1 < 0.7` and for every pair derived by `add_box` from a block with a
positive largest dimension). -/
theorem C8_mesh_quality_monotone (minBS maxBS dim : ℚ)
    (h1 : 0 < minBS) (h2 : minBS ≤ maxBS) (h3 : 0 ≤ dim) :
    BlockMesh.cellsPerAxis minBS maxBS 0 dim ≤ BlockMesh.cellsPerAxis minBS maxBS 50 dim
    ∧ BlockMesh.cellsPerAxis minBS maxBS 50 dim ≤ BlockMesh.cellsPerAxis minBS maxBS 100 dim := by
  have bs0 : BlockMesh.blockSizeAt minBS maxBS 0 = maxBS := by
    rw [BlockMesh.blockSizeAt, BlockMesh.quality_a_eq, BlockMesh.quality_b_eq]; ring
  have bs50 : BlockMesh.blockSizeAt minBS maxBS 50 = (minBS + maxBS) / 2 := by
    rw [BlockMesh.blockSizeAt, BlockMesh.quality_a_eq, BlockMesh.quality_b_eq]; ring
  have bs100 : BlockMesh.blockSizeAt minBS maxBS 100 = minBS := by
    rw [BlockMesh.blockSizeAt, BlockMesh.quality_a_eq, BlockMesh.quality_b_eq]; ring
  constructor
  · apply Int.floor_le_floor
    rw [bs0, bs50]
    gcongr <;> linarith
  · apply Int.floor_le_floor
    rw [bs50, bs100]
    gcongr <;> linarith

/-- Witness for C8 at the default block sizes and extent 3. -/
theorem C8_witness :
    ((0 : ℚ) < 1/10 ∧ (1/10 : ℚ) ≤ 7/10 ∧ (0 : ℚ) ≤ 3)
    ∧ (BlockMesh.cellsPerAxis (1/10) (7/10) 0 3 ≤ BlockMesh.cellsPerAxis (1/10) (7/10) 50 3
       ∧ BlockMesh.cellsPerAxis (1/10) (7/10) 50 3 ≤ BlockMesh.cellsPerAxis (1/10) (7/10) 100 3) :=
  ⟨⟨by norm_num, by norm_num, by norm_num⟩,
   C8_mesh_quality_monotone (1/10) (7/10) 3 (by norm_num) (by norm_num) (by norm_num)⟩

/-- C10: assigning an out-of-range quality through the `mesh_quality` setter
raises, leaves every block's cell counts unchanged, and still leaves the stored
`_mesh_quality` equal to the rejected value (the assignment happens before the
range check). -/
theorem C10_setter_rejects_but_stores (s : BlockMesh.BlockMeshDict) (q : ℚ)
    (h : q < 0 ∨ q > 100) :
    (BlockMesh.setMeshQuality s q).2 = true
    ∧ (BlockMesh.setMeshQuality s q).1.blocks = s.blocks
    ∧ (BlockMesh.setMeshQuality s q).1.mesh_quality = q := by
  have hc : 0 > q ∨ q > 100 := h
  simp [BlockMesh.setMeshQuality, BlockMesh.calcMeshQuality, BlockMesh.calcQualityCoefficients, hc]

/-- Witness for C10: a concrete dictionary with one registered block and the
rejected quality 101. -/
theorem C10_witness :
    ((101 : ℚ) < 0 ∨ (101 : ℚ) > 100)
    ∧ ((BlockMesh.setMeshQuality
          ⟨50, 1/10, 7/10, 2/5, -3/500, 3/2, 6/5, [⟨[3, 4, 5/2], [2, 3, 2]⟩]⟩ 101).2 = true
       ∧ (BlockMesh.setMeshQuality
          ⟨50, 1/10, 7/10, 2/5, -3/500, 3/2, 6/5, [⟨[3, 4, 5/2], [2, 3, 2]⟩]⟩ 101).1.blocks
          = (⟨50, 1/10, 7/10, 2/5, -3/500, 3/2, 6/5, [⟨[3, 4, 5/2], [2, 3, 2]⟩]⟩ :
              BlockMesh.BlockMeshDict).blocks
       ∧ (BlockMesh.setMeshQuality
          ⟨50, 1/10, 7/10, 2/5, -3/500, 3/2, 6/5, [⟨[3, 4, 5/2], [2, 3, 2]⟩]⟩ 101).1.mesh_quality
          = 101) :=
  ⟨Or.inr (by norm_num),
   C10_setter_rejects_but_stores _ 101 (Or.inr (by norm_num))⟩

/-! ## Theorems about the boundary-type embedding -/

/-- C4 counterexample: in the rendered text of the `outletInlet` boundary built
with `outletValue=[1,2,3], value=[1,2,3], is_uniform=True`, no line carries the
tokens `outletValue (1 2 3);` — `__str__` puts the `uniform ` prefix on every
attribute whose name contains "value", so the line is
`outletValue uniform (1 2 3);`, contradicting the claim's "without a uniform
prefix". -/
theorem C4_counterexample :
    ["outletValue", "(1", "2", "3);"] ∉ Boundaries.c4lines ∧ Boundaries.c4lines ≠ [] := by
  decide

/-- C4 amended: constructing `outletInlet` without `outletValue` raises; with
`outletValue=[1,2,3], value=[1,2,3], is_uniform=True` construction succeeds and
the rendered text consists of the lines `type outletInlet;`,
`outletValue uniform (1 2 3);` and `value uniform (1 2 3);` (modulo alignment
whitespace) — i.e. the `uniform` prefix is applied to `outletValue` as well. -/
theorem C4_amended :
    Boundaries.isErr (Boundaries.inletInit "outletInlet" Boundaries.c4missing) = true
    ∧ Boundaries.c4lines
        = [[], ["\x7b"], ["type", "outletInlet;"], ["outletValue", "uniform", "(1", "2", "3);"],
           ["value", "uniform", "(1", "2", "3);"], ["\x7d"]]
    ∧ ["outletValue", "uniform", "(1", "2", "3);"] ∈ Boundaries.c4lines
    ∧ ["value", "uniform", "(1", "2", "3);"] ∈ Boundaries.c4lines := by
  refine ⟨by decide, by decide, by decide, by decide⟩

/-! ## Theorems about the geometry embedding -/

/-- C2: requesting `Point(1, 2, 3)` twice returns the same instance (index 0)
both times, but the second call does *not* leave the tag unchanged: the first
call assigns `num = 1` (`_current_number`), while the deduplicating second call
sets `cls._inst_number = idx` — the registry *index* — and the re-run
`__init__` overwrites the shared instance's `num` with `0`.  The claim's
"stable integer tag … not changed by the second call" is the evident intent
(`produce` feeds `num` to `gmsh` as a tag, and the parallel `Line.__new__`
correctly uses `instance.num`); the code is a slip. -/
theorem C2_point_tag_clobbered :
    (Geometry.makePoint (Geometry.makePoint Geometry.emptyPoints [1, 2, 3]).1 [1, 2, 3]).2
      = (Geometry.makePoint Geometry.emptyPoints [1, 2, 3]).2
    ∧ (Geometry.makePoint Geometry.emptyPoints [1, 2, 3]).1.nums = [1]
    ∧ (Geometry.makePoint (Geometry.makePoint Geometry.emptyPoints [1, 2, 3]).1 [1, 2, 3]).1.nums
        = [0] := by
  refine ⟨by decide, by decide, by decide⟩

/-- C6 counterexample: on the scenario `Box([3,4,2.5], [0,0,0])` then
`cut_surface` with the patch `[1.5,0,1.25]` at `[0.75,0,0.625]`, the cut does
not select any face: it raises `AttributeError` (`primitives.Surface` has no
`get_used_coords`), so no loop is appended anywhere. -/
theorem C6_counterexample :
    Geometry.c6cut = .error "AttributeError: 'Surface' object has no attribute 'get_used_coords'" := by
  rfl

/-- C6 amended: the cut call on the scenario raises `AttributeError` before
examining any face, and every surface of the registry (the six box faces and
the patch) keeps a loop list of length 1. -/
theorem C6_amended :
    Geometry.isCutErr Geometry.c6cut = true
    ∧ Geometry.c6loopLens = [1, 1, 1, 1, 1, 1, 1] := by
  refine ⟨by rfl, by decide⟩

/-- C7 counterexample: translating a unit-square `Surface` by `[5, 5, 5]`
moves the corner point at the origin to `(10, 10, 10)` — the offset is applied
once per line containing the point, i.e. twice, not "exactly once" (the
registry also holds three helper points so that the corrupted `_locations`
lookups succeed and the call completes instead of raising). -/
theorem C7_counterexample :
    Geometry.c7after.2 = false
    ∧ (Geometry.c7after.1.pts.coords.getD 0 []) = [10, 10, 10]
    ∧ (Geometry.c7after.1.pts.coords.getD 0 [])
        ≠ List.zipWith (fun a b => a + b) ([0, 0, 0] : List ℚ) [5, 5, 5] := by
  refine ⟨by decide, by decide, by decide⟩

namespace Geometry

/-- Shifting the counter of `firstIdxAux` shifts the result. -/
theorem firstIdxAux_succ [DecidableEq α] (x : α) (l : List α) :
    ∀ k, firstIdxAux x l (k + 1) = (firstIdxAux x l k).map (fun m => m + 1) := by
  induction l with
  | nil => intro k; rfl
  | cons a as ih =>
      intro k
      by_cases h : a = x
      · simp [firstIdxAux, h]
      · simpa [firstIdxAux, h] using ih (k + 1)

/-- Unfolding lemma for `firstIdx` on a cons cell. -/
theorem firstIdx_cons [DecidableEq α] (x a : α) (l : List α) :
    firstIdx x (a :: l) = if a = x then some 0 else (firstIdx x l).map (fun m => m + 1) := by
  by_cases h : a = x <;> simp [firstIdx, firstIdxAux, h, firstIdxAux_succ]

/-- A present element is found by `firstIdx`. -/
theorem firstIdx_isSome_of_mem [DecidableEq α] {x : α} {l : List α} (h : x ∈ l) :
    (firstIdx x l).isSome = true := by
  induction l with
  | nil => cases h
  | cons a as ih =>
      rw [firstIdx_cons]
      by_cases ha : a = x
      · simp [ha]
      · rcases List.mem_cons.mp h with h1 | h2
        · exact absurd h1.symm ha
        · simp [ha, ih h2]

/-- What `firstIdx x l = some j` guarantees: a valid index holding `x`. -/
theorem firstIdx_some_spec [DecidableEq α] {x : α} {l : List α} {j : ℕ}
    (h : firstIdx x l = some j) : j < l.length ∧ l[j]? = some x := by
  induction l generalizing j with
  | nil => simp [firstIdx, firstIdxAux] at h
  | cons a as ih =>
      rw [firstIdx_cons] at h
      by_cases ha : a = x
      · simp [ha] at h
        subst h
        exact ⟨Nat.succ_pos _, by simp [ha]⟩
      · simp [ha] at h
        rcases h with ⟨m, hm, hj⟩
        rcases ih hm with ⟨hlt, hget⟩
        subst hj
        exact ⟨Nat.succ_lt_succ hlt, by simpa using hget⟩

/-- Two different positions of a pairwise-distinct list cannot hold the same
value. -/
theorem pairwise_ne_getElem? {l : List (List ℚ)} (hd : l.Pairwise (fun a b => a ≠ b))
    {i j : ℕ} (hij : i ≠ j) {v : List ℚ} (hi : l[i]? = some v) (hj : l[j]? = some v) :
    False := by
  rcases List.getElem?_eq_some.mp hi with ⟨hi', hiv⟩
  rcases List.getElem?_eq_some.mp hj with ⟨hj', hjv⟩
  rcases hij.lt_or_lt with hlt | hlt
  · exact (List.pairwise_iff_get.mp hd ⟨i, hi'⟩ ⟨j, hj'⟩ hlt) (by simp [hiv, hjv])
  · exact (List.pairwise_iff_get.mp hd ⟨j, hj'⟩ ⟨i, hi'⟩ hlt) (by simp [hiv, hjv])

/-- Reindexing the translated-set list of `TransInv` by a membership-equivalent
one. -/
theorem transInv_congr {orig : List (List ℚ)} {off : List ℚ} {P Q : List ℕ} {p : PointStore}
    (h : ∀ x, x ∈ P ↔ x ∈ Q) (hI : TransInv orig off P p) : TransInv orig off Q p := by
  obtain ⟨h1, h2, h3, h4, h5⟩ := hI
  exact ⟨h1, h2, fun i hi => h3 i (fun c => hi ((h i).mp c)),
    fun i hi => h4 i ((h i).mpr hi), fun i hi => h5 i (fun c => hi ((h i).mp c))⟩

/-- One `Point.translate` call on a not-yet-translated point: it does not
raise, applies the offset to that point exactly once, and preserves the
invariant. -/
theorem pointTranslate_step {orig : List (List ℚ)} {off : List ℚ}
    (hd : orig.Pairwise (fun a b => a ≠ b))
    {P : List ℕ} {p : PointStore} (hInv : TransInv orig off P p)
    {i : ℕ} (hiP : i ∉ P) (hil : i < orig.length) :
    (pointTranslate p i off).2 = false
    ∧ TransInv orig off (i :: P) (pointTranslate p i off).1 := by
  obtain ⟨h1, h2, h3, h4, h5⟩ := hInv
  have hov : orig[i]? = some (orig.get ⟨i, hil⟩) := by
    simpa using List.getElem?_eq_getElem hil
  have hco : p.coords[i]? = some (orig.get ⟨i, hil⟩) := by rw [h3 i hiP, hov]
  have hold : p.coords.getD i [] = orig.get ⟨i, hil⟩ := by
    rw [List.getD_eq_getElem?_getD, hco]; rfl
  have hlo : p.locations[i]? = some (orig.get ⟨i, hil⟩) := by rw [h5 i hiP, hov]
  have hmem : orig.get ⟨i, hil⟩ ∈ p.locations := List.getElem?_mem hlo
  obtain ⟨j, hj⟩ := Option.isSome_iff_exists.mp (firstIdx_isSome_of_mem hmem)
  obtain ⟨hjl, hjv⟩ := firstIdx_some_spec hj
  have hjPi : j ∈ P ∨ j = i := by
    by_contra hc
    push_neg at hc
    have hji : p.locations[j]? = orig[j]? := h5 j hc.1
    exact pairwise_ne_getElem? hd (fun he => hc.2 he.symm) hov (hji ▸ hjv)
  have hred : pointTranslate p i off =
      ({ p with
          coords := p.coords.set i (List.zipWith (fun a b => a + b) (orig.get ⟨i, hil⟩) off)
          locations := p.locations.set j off }, false) := by
    simp only [pointTranslate, hold, hj]
  rw [hred]
  refine ⟨rfl, ?_, ?_, ?_, ?_, ?_⟩
  · simpa using h1
  · simpa using h2
  · intro k hk
    have hki : k ≠ i := fun he => hk (he ▸ List.mem_cons_self i P)
    have hkP : k ∉ P := fun hc => hk (List.mem_cons_of_mem i hc)
    simpa [List.getElem?_set_ne (Ne.symm hki)] using h3 k hkP
  · intro k hk
    rcases List.mem_cons.mp hk with hke | hkP
    · subst hke
      have hkl : k < p.coords.length := h1 ▸ hil
      rw [List.getElem?_set_eq hkl, hov]
      rfl
    · have hki : k ≠ i := fun he => hiP (he ▸ hkP)
      simpa [List.getElem?_set_ne (Ne.symm hki)] using h4 k hkP
  · intro k hk
    have hki : k ≠ i := fun he => hk (he ▸ List.mem_cons_self i P)
    have hkP : k ∉ P := fun hc => hk (List.mem_cons_of_mem i hc)
    have hkj : j ≠ k := by
      rcases hjPi with hjP | hji
      · exact fun he => hkP (he ▸ hjP)
      · exact fun he => hki (he.symm.trans hji)
    simpa [List.getElem?_set_ne hkj] using h5 k hkP

/-- A full `transPtsSeq` walk over fresh, valid, duplicate-free points neither
raises nor touches anything else, and translates each listed point once. -/
theorem transPtsSeq_spec {orig : List (List ℚ)} {off : List ℚ}
    (hd : orig.Pairwise (fun a b => a ≠ b)) :
    ∀ (todo P : List ℕ) (p : PointStore),
      todo.Nodup → (∀ x ∈ todo, x ∉ P) → (∀ x ∈ todo, x < orig.length) →
      TransInv orig off P p →
      (transPtsSeq p todo off).2 = false
      ∧ TransInv orig off (todo ++ P) (transPtsSeq p todo off).1 := by
  intro todo
  induction todo with
  | nil => intro P p _ _ _ hI; exact ⟨rfl, hI⟩
  | cons i rest ih =>
      intro P p hnd hfresh hbound hI
      have hiP : i ∉ P := hfresh i (List.mem_cons_self i rest)
      have hil : i < orig.length := hbound i (List.mem_cons_self i rest)
      obtain ⟨hflag, hI'⟩ := pointTranslate_step hd hI hiP hil
      have hstep : transPtsSeq p (i :: rest) off
          = transPtsSeq (pointTranslate p i off).1 rest off := by
        simp only [transPtsSeq, hflag]
        rfl
      rcases List.nodup_cons.mp hnd with ⟨hirest, hndr⟩
      have hfresh' : ∀ x ∈ rest, x ∉ (i :: P) := by
        intro x hx hc
        rcases List.mem_cons.mp hc with he | hP
        · exact hirest (he ▸ hx)
        · exact hfresh x (List.mem_cons_of_mem i hx) hP
      have hbound' : ∀ x ∈ rest, x < orig.length :=
        fun x hx => hbound x (List.mem_cons_of_mem i hx)
      obtain ⟨hflag', hI''⟩ := ih (i :: P) _ hndr hfresh' hbound' hI'
      rw [hstep]
      refine ⟨hflag', transInv_congr ?_ hI''⟩
      intro x
      simp [List.mem_cons, List.mem_append]
      tauto

/-- Membership through `dedupFirstAux`. -/
theorem mem_dedupFirstAux (x : ℕ) :
    ∀ (l acc : List ℕ), x ∈ dedupFirstAux l acc ↔ x ∈ l ∨ x ∈ acc := by
  intro l
  induction l with
  | nil => intro acc; simp [dedupFirstAux]
  | cons y ys ih =>
      intro acc
      by_cases hy : y ∈ acc
      · rw [dedupFirstAux, if_pos hy, ih]
        constructor
        · rintro (h | h)
          · exact Or.inl (List.mem_cons_of_mem y h)
          · exact Or.inr h
        · rintro (h | h)
          · rcases List.mem_cons.mp h with he | hm
            · exact Or.inr (he ▸ hy)
            · exact Or.inl hm
          · exact Or.inr h
      · rw [dedupFirstAux, if_neg hy, ih]
        constructor
        · rintro (h | h)
          · exact Or.inl (List.mem_cons_of_mem y h)
          · rcases List.mem_cons.mp h with he | hm
            · exact Or.inl (he ▸ List.mem_cons_self y ys)
            · exact Or.inr hm
        · rintro (h | h)
          · rcases List.mem_cons.mp h with he | hm
            · exact Or.inr (he ▸ List.mem_cons_self y acc)
            · exact Or.inl hm
          · exact Or.inr (List.mem_cons_of_mem y h)

/-- Membership through `dedupFirst`. -/
theorem mem_dedupFirst {x : ℕ} {l : List ℕ} : x ∈ dedupFirst l ↔ x ∈ l := by
  rw [dedupFirst, mem_dedupFirstAux]
  simp

/-- `dedupFirstAux` yields duplicate-free output from a duplicate-free
accumulator. -/
theorem nodup_dedupFirstAux :
    ∀ (l acc : List ℕ), acc.Nodup → (dedupFirstAux l acc).Nodup := by
  intro l
  induction l with
  | nil => intro acc h; simpa [dedupFirstAux] using h
  | cons y ys ih =>
      intro acc h
      by_cases hy : y ∈ acc
      · rw [dedupFirstAux, if_pos hy]; exact ih acc h
      · rw [dedupFirstAux, if_neg hy]
        exact ih (y :: acc) (List.nodup_cons.mpr ⟨hy, h⟩)

/-- `dedupFirst` yields a duplicate-free list. -/
theorem nodup_dedupFirst (l : List ℕ) : (dedupFirst l).Nodup :=
  nodup_dedupFirstAux l [] List.nodup_nil

/-- The `TriSurface.translate` walk: starting from any already-translated set
`tr`, it does not raise, and on return exactly the points of `tr` together
with the points reachable from the faces have had the offset applied once. -/
theorem triGo_spec {orig : List (List ℚ)} {off : List ℚ}
    (hd : orig.Pairwise (fun a b => a ≠ b)) :
    ∀ (faces : List ℕ) (g : GeomStore) (tr : List ℕ),
      (∀ x ∈ reachablePts g faces, x < orig.length) →
      TransInv orig off tr g.pts →
      (triTranslateGo g faces tr off).2 = false
      ∧ ∃ P, (∀ x, x ∈ P ↔ x ∈ tr ∨ x ∈ reachablePts g faces)
          ∧ TransInv orig off P (triTranslateGo g faces tr off).1.pts := by
  intro faces
  induction faces with
  | nil =>
      intro g tr _ hI
      exact ⟨rfl, tr, by simp [reachablePts], hI⟩
  | cons f rest ih =>
      intro g tr hbound hI
      have hrc : reachablePts g (f :: rest) = facePoints g f ++ reachablePts g rest := by
        simp [reachablePts]
      have htodo : ∀ x, x ∈ (dedupFirst (facePoints g f)).filter (fun p => ¬ p ∈ tr)
          ↔ (x ∈ facePoints g f ∧ x ∉ tr) := by
        intro x
        rw [List.mem_filter, mem_dedupFirst]
        simp
      have hnd : ((dedupFirst (facePoints g f)).filter (fun p => ¬ p ∈ tr)).Nodup :=
        (nodup_dedupFirst _).filter _
      have hfresh : ∀ x ∈ (dedupFirst (facePoints g f)).filter (fun p => ¬ p ∈ tr), x ∉ tr :=
        fun x hx => ((htodo x).mp hx).2
      have hbnd : ∀ x ∈ (dedupFirst (facePoints g f)).filter (fun p => ¬ p ∈ tr),
          x < orig.length := by
        intro x hx
        refine hbound x ?_
        rw [hrc, List.mem_append]
        exact Or.inl ((htodo x).mp hx).1
      obtain ⟨hflag, hI'⟩ := transPtsSeq_spec hd _ tr g.pts hnd hfresh hbnd hI
      have hstep : triTranslateGo g (f :: rest) tr off
          = triTranslateGo
              { g with pts := (transPtsSeq g.pts
                  ((dedupFirst (facePoints g f)).filter (fun p => ¬ p ∈ tr)) off).1 }
              rest
              (tr ++ (dedupFirst (facePoints g f)).filter (fun p => ¬ p ∈ tr)) off := by
        simp only [triTranslateGo, hflag]
        rfl
      set g' : GeomStore :=
        { g with pts := (transPtsSeq g.pts
            ((dedupFirst (facePoints g f)).filter (fun p => ¬ p ∈ tr)) off).1 }
      have hreach' : reachablePts g' rest = reachablePts g rest := rfl
      have hbound' : ∀ x ∈ reachablePts g' rest, x < orig.length := by
        rw [hreach']
        intro x hx
        refine hbound x ?_
        rw [hrc, List.mem_append]
        exact Or.inr hx
      have hI2 : TransInv orig off
          (tr ++ (dedupFirst (facePoints g f)).filter (fun p => ¬ p ∈ tr)) g'.pts := by
        refine transInv_congr ?_ hI'
        intro x
        simp only [List.mem_append]
        tauto
      obtain ⟨hflag2, P, hP, hIP⟩ := ih g' _ hbound' hI2
      rw [hstep]
      refine ⟨hflag2, P, ?_, hIP⟩
      intro x
      rw [hP x, hreach', List.mem_append, htodo x, hrc, List.mem_append]
      by_cases hxtr : x ∈ tr <;> tauto

end Geometry

/-- C7 amended: `translate` on a multi-face shape (`TriSurface`) de-duplicates
the reachable point set and applies the offset to each reachable point exactly
once, leaving every other point untouched and raising nothing — provided the
registry is in its post-construction state (locations in sync with coordinates
and pairwise distinct) and the shape's point references are valid.  (For a
single `Surface` or `Loop` the offset is instead applied once per line
containing the point — see the counterexample, where a square's corners move
twice.) -/
theorem C7_amended (g : Geometry.GeomStore) (faces : List ℕ) (off : List ℚ)
    (hsync : g.pts.locations = g.pts.coords)
    (hdist : g.pts.coords.Pairwise (fun a b => a ≠ b))
    (hvalid : ∀ x ∈ Geometry.reachablePts g faces, x < g.pts.coords.length) :
    (Geometry.triSurfaceTranslate g faces off).2 = false
    ∧ ∀ i, (Geometry.triSurfaceTranslate g faces off).1.pts.coords[i]?
        = if i ∈ Geometry.reachablePts g faces
          then (g.pts.coords[i]?).map (fun c => List.zipWith (fun a b => a + b) c off)
          else g.pts.coords[i]? := by
  have hI : Geometry.TransInv g.pts.coords off [] g.pts :=
    ⟨rfl, by rw [hsync], fun i _ => rfl, fun i hi => absurd hi (List.not_mem_nil i),
     fun i _ => by rw [hsync]⟩
  obtain ⟨hflag, P, hP, hIP⟩ := Geometry.triGo_spec hdist faces g [] hvalid hI
  obtain ⟨_, _, h3, h4, _⟩ := hIP
  refine ⟨hflag, ?_⟩
  intro i
  by_cases hi : i ∈ Geometry.reachablePts g faces
  · rw [if_pos hi]
    exact h4 i ((hP i).mpr (Or.inr hi))
  · rw [if_neg hi]
    refine h3 i fun hc => ?_
    rcases (hP i).mp hc with h | h
    · exact List.not_mem_nil i h
    · exact hi h

/-- Witness for C7 on the six faces of a concrete box with pairwise-distinct
corners. -/
theorem C7_witness :
    (Geometry.c7box.1.pts.locations = Geometry.c7box.1.pts.coords
     ∧ Geometry.c7box.1.pts.coords.Pairwise (fun a b => a ≠ b)
     ∧ ∀ x ∈ Geometry.reachablePts Geometry.c7box.1 Geometry.c7boxFaces,
         x < Geometry.c7box.1.pts.coords.length)
    ∧ ((Geometry.triSurfaceTranslate Geometry.c7box.1 Geometry.c7boxFaces [1, 1, 1]).2 = false
       ∧ ∀ i, (Geometry.triSurfaceTranslate Geometry.c7box.1 Geometry.c7boxFaces
            [1, 1, 1]).1.pts.coords[i]?
          = if i ∈ Geometry.reachablePts Geometry.c7box.1 Geometry.c7boxFaces
            then (Geometry.c7box.1.pts.coords[i]?).map
                   (fun c => List.zipWith (fun a b => a + b) c [1, 1, 1])
            else Geometry.c7box.1.pts.coords[i]?) :=
  ⟨⟨by decide, by decide, by decide⟩,
   C7_amended Geometry.c7box.1 Geometry.c7boxFaces [1, 1, 1] (by decide) (by decide) (by decide)⟩

end Wop

namespace Wop

/-! ## Theorems about the dictionary-file codec -/

namespace Codec

/-- Updating a key in the parsed dictionary and reading it back yields the
stored entry (insertion-ordered Python-dict semantics). -/
theorem bdictGet_upd (d : Bdict) (k : Option String) (v : BdEntry) :
    bdictGet (bdictUpd d k v) k = some v := by
  induction d with
  | nil => simp [bdictUpd, bdictGet]
  | cons a rest ih =>
      by_cases ha : a.1 = k
      · simp [bdictUpd, bdictGet, ha]
      · have h2 : bdictUpd (a :: rest) k v = a :: bdictUpd rest k v := by
          by_cases hr : rest.any (fun p => p.1 = k) <;>
            simp [bdictUpd, ha, hr]
        rw [h2]
        simpa [bdictGet, List.find?, ha] using ih

end Codec

/-- C1: `add_initial_boundary` does NOT store the constructed boundary under
`initial[name]` — it stores it in `self.__dict__` — so for every codec state
whose `initial` map lacks `name`, even when the construction of the variant
itself succeeds, the call raises `KeyError` (from `_add_boundary_to_file`
reading `self.initial[name]`) instead of rewriting the file.  This refutes
the claimed store-and-insert behaviour on every fresh name. -/
theorem C1_add_initial_boundary_keyerror (c : Codec.CodecState)
    (name btype : String) (kw : Boundaries.BKwargs) (b : Boundaries.BInst)
    (habs : Codec.bdictGet c.initial (some name) = none)
    (hcons : Boundaries.constructBoundary btype kw = .ok b) :
    Codec.add_initial_boundary c name btype kw = .error "KeyError" := by
  simp [Codec.add_initial_boundary, Codec.add_boundary_to_file, Except.bind, habs, hcons]

/-- Concrete instance of the C1 failure: a fresh codec over a minimal file
with the sentinel present, a valid `zeroGradient` construction, and yet
`KeyError`. -/
theorem C1_witness :
    Codec.bdictGet Codec.c1state.initial (some "inlet") = none ∧
    Boundaries.constructBoundary "zeroGradient" {} =
      .ok ⟨[("type", Boundaries.Val.vstr "zeroGradient")]⟩ ∧
    Codec.add_initial_boundary Codec.c1state "inlet" "zeroGradient" {} =
      .error "KeyError" :=
  ⟨rfl, rfl,
   C1_add_initial_boundary_keyerror Codec.c1state "inlet" "zeroGradient" {}
     ⟨[("type", Boundaries.Val.vstr "zeroGradient")]⟩ rfl rfl⟩

/-- C9: whenever a parsed line carries an inline fixed-length list of `n`
numeric literals (the `list_match.group(5)` branch of `_parse_file`), the
value stored in the boundary dictionary under the list's name is exactly the
arithmetic mean of the literals. -/
theorem C9_inline_list_average (st : Codec.PState) (line nm : String)
    (n : ℕ) (txts : List (List Char)) (vs : List ℚ)
    (hend : st.end_reached = false)
    (hsent : Boundaries.strHasSub line Codec.SENT = false)
    (hif : Codec.ifieldMatch line = none)
    (hlf : st.list_found = false)
    (hlm : Codec.listMatch line = some (nm, some n))
    (hin : Codec.inlineScan n line.toList = some txts)
    (hrats : Codec.ratsOf txts = some vs)
    (hn0 : n ≠ 0)
    (hvn : vs.length = n)
    (hname : Codec.pyTruthyName st.bname = false)
    (hbf : st.boundaries_found = false) :
    (Codec.parseLine st line).map (fun st2 => Codec.bdictGet st2.bdict (some nm))
      = .ok (some (.entVal (.vfloat (vs.sum / (vs.length : ℚ))))) := by
  have h2 : Codec.phaseIfield (Codec.phaseSent st line) line = .ok st := by
    simp [Codec.phaseSent, hsent, Codec.phaseIfield, hif]
  have h3 : Codec.phaseListBody st line = .ok st := by
    simp [Codec.phaseListBody, hlf]
  have h4 : Codec.phaseListHead st line =
      .ok { st with bdict := Codec.bdictUpd st.bdict (some nm) (.entVal (.vfloat (vs.sum / (n : ℚ)))) } := by
    simp [Codec.phaseListHead, hlm, show Codec.inlineScan n line.data = some txts from hin,
      hrats, hn0, Codec.storeParsed, hname]
  rw [Codec.parseLine]
  simp [hend, h2, h3, h4, Except.bind, Except.map, Codec.phaseBoundaries, hbf,
    Codec.finishLine, Codec.bdictGet_upd, hvn]
  split <;> simp [Codec.bdictGet_upd, hvn]

/-- The mean property evaluated on a concrete `internalField` line holding
the inline list `(1 1 2 6)`: the stored value is `10/4`. -/
theorem C9_witness :
    (Codec.parseLine (Codec.initPState [] []) Codec.c9line).map
        (fun st2 => Codec.bdictGet st2.bdict (some "internalField"))
      = .ok (some (.entVal (.vfloat (([1, 1, 2, 6] : List ℚ).sum /
          (([1, 1, 2, 6] : List ℚ).length : ℚ))))) :=
  C9_inline_list_average (Codec.initPState [] []) Codec.c9line "internalField"
    4 [['1'], ['1'], ['2'], ['6']] [1, 1, 2, 6]
    rfl rfl rfl rfl rfl rfl rfl (by decide) (by decide) rfl rfl

end Wop


namespace Wop

namespace Codec

open Boundaries

theorem exceptBindAssoc (a : Except String PState)
    (f g : PState → Except String PState) :
    (a.bind f).bind g = a.bind (fun x => (f x).bind g) := by
  cases a <;> rfl

theorem runParse_broke (st : PState) (ls : List String) (h : st.broke = true) :
    runParse st ls = .ok st := by
  cases ls <;> simp [runParse, h]

theorem runParse_append (st : PState) (xs ys : List String) :
    runParse st (xs ++ ys) = (runParse st xs).bind (fun s2 => runParse s2 ys) := by
  induction xs generalizing st with
  | nil => simp [runParse, Except.bind]
  | cons x xs ih =>
      by_cases hb : st.broke = true
      · rw [List.cons_append, runParse, runParse]
        simp [hb, Except.bind, runParse_broke st ys hb]
      · simp only [Bool.not_eq_true] at hb
        rw [List.cons_append, runParse, runParse]
        simp only [hb, if_neg Bool.false_ne_true, exceptBindAssoc]
        cases h : parseLine st x <;> simp [Except.bind, ih]

theorem runParse_end (st : PState) (ls : List String)
    (hend : st.end_reached = true) (hbroke : st.broke = false) :
    runParse st ls = .ok { st with acc := st.acc ++ ls } := by
  induction ls generalizing st with
  | nil => simp [runParse]
  | cons l ls ih =>
      rw [runParse]
      have hpl : parseLine st l = .ok { st with acc := st.acc ++ [l] } := by
        simp [parseLine, hend]
      simp [hbroke, hpl, Except.bind, ih, hend]

theorem parseLine_eq (st : PState) (l : String) (hend : st.end_reached = false) :
    parseLine st l = (prePhases st l).bind (fun s => phaseBoundaries s l) := by
  rw [parseLine, prePhases, if_neg (by simp [hend])]
  rw [exceptBindAssoc]
  refine congrArg _ (funext fun s1 => ?_)
  rw [exceptBindAssoc]

theorem phaseIfield_ok (st : PState) (l : String) (hif : ifieldOkB l = true) :
    ∃ bd2, phaseIfield st l = .ok { st with bdict := bd2 } := by
  rw [ifieldOkB] at hif
  rw [phaseIfield]
  cases hIF : ifieldMatch l with
  | none => exact ⟨st.bdict, rfl⟩
  | some v =>
      obtain ⟨u, g3⟩ := v
      rw [hIF] at hif
      simp only [ne_eq, decide_not, Bool.not_eq_true, Bool.not_eq_true',
        decide_eq_false_iff_not] at hif
      exact ⟨bdictUpd st.bdict (some "internalField")
        (.entIF [("is_uniform", .vbool u), ("value", g3Val g3)]), by simp [hif]⟩

theorem phaseListBody_skip (st : PState) (l : String) (hlf : st.list_found = false) :
    phaseListBody st l = .ok st := by
  simp [phaseListBody, hlf]

theorem phaseListHead_pass (st : PState) (l : String)
    (hpass : listMatch l = none ∨ pyTruthyName st.bname = false)
    (hls : listOkB l = true) :
    ∃ bd2, phaseListHead st l = .ok { st with bdict := bd2 } := by
  rw [listOkB] at hls
  rw [phaseListHead]
  cases hLM : listMatch l with
  | none => exact ⟨st.bdict, rfl⟩
  | some v =>
      obtain ⟨nm, nOpt⟩ := v
      rw [hLM] at hls
      cases nOpt with
      | none => simp at hls
      | some n =>
          have hname : pyTruthyName st.bname = false := by
            rcases hpass with h | h
            · rw [hLM] at h; cases h
            · exact h
          simp only [Bool.and_eq_true, bne_iff_ne] at hls
          obtain ⟨hn0, hrest⟩ := hls
          cases hIS : inlineScan n l.toList with
          | none => rw [hIS] at hrest; cases hrest
          | some txts =>
              rw [hIS] at hrest
              simp only [Option.isSome_iff_exists] at hrest
              obtain ⟨vs, hRQ⟩ := hrest
              refine ⟨bdictUpd st.bdict (some nm) (.entVal (.vfloat (vs.sum / (n : ℚ)))), ?_⟩
              simp [show inlineScan n l.data = some txts from hIS, hRQ, hn0, storeParsed, hname]

theorem phaseListHead_attr (st : PState) (l : String) (c : BInst)
    (hname : pyTruthyName st.bname = true) (hcls : st.cls = some c)
    (hls : listOkB l = true) :
    ∃ cl2, phaseListHead st l = .ok { st with cls := some cl2 } := by
  rw [listOkB] at hls
  rw [phaseListHead]
  cases hLM : listMatch l with
  | none => exact ⟨c, by rw [← hcls]⟩
  | some v =>
      obtain ⟨nm, nOpt⟩ := v
      rw [hLM] at hls
      cases nOpt with
      | none => simp at hls
      | some n =>
          simp only [Bool.and_eq_true, bne_iff_ne] at hls
          obtain ⟨hn0, hrest⟩ := hls
          cases hIS : inlineScan n l.toList with
          | none => rw [hIS] at hrest; cases hrest
          | some txts =>
              rw [hIS] at hrest
              simp only [Option.isSome_iff_exists] at hrest
              obtain ⟨vs, hRQ⟩ := hrest
              refine ⟨⟨dictUpd c.battrs nm (.vfloat (vs.sum / (n : ℚ)))⟩, ?_⟩
              simp [show inlineScan n l.data = some txts from hIS, hRQ, hn0, storeParsed, hname, hcls]

theorem prePhases_pass (st : PState) (l : String)
    (hlf : st.list_found = false)
    (hpass : listMatch l = none ∨ pyTruthyName st.bname = false)
    (hif : ifieldOkB l = true) (hls : listOkB l = true) :
    ∃ bd2, prePhases st l =
      .ok { st with
        bdict := bd2
        placeholder_found := st.placeholder_found || hasSent l } := by
  rw [prePhases]
  have hsent : phaseSent st l = { st with placeholder_found := st.placeholder_found || hasSent l } := by
    rw [phaseSent, hasSent]
    by_cases hs : strHasSub l SENT = true <;> simp [hs]
  rw [hsent]
  obtain ⟨bd2, h1⟩ := phaseIfield_ok { st with placeholder_found := st.placeholder_found || hasSent l } l hif
  rw [h1]
  obtain ⟨bd3, h3⟩ := phaseListHead_pass { st with placeholder_found := st.placeholder_found || hasSent l, bdict := bd2 } l (by simpa using hpass) hls
  simp only [Except.bind]
  rw [phaseListBody_skip _ _ (by simpa using hlf)]
  simp only [Except.bind]
  rw [h3]
  exact ⟨bd3, rfl⟩

theorem prePhases_attr (st : PState) (l : String) (c : BInst)
    (hlf : st.list_found = false)
    (hname : pyTruthyName st.bname = true) (hcls : st.cls = some c)
    (hif : ifieldOkB l = true) (hls : listOkB l = true) :
    ∃ bd2 cl2, prePhases st l =
      .ok { st with
        bdict := bd2
        cls := some cl2
        placeholder_found := st.placeholder_found || hasSent l } := by
  rw [prePhases]
  have hsent : phaseSent st l = { st with placeholder_found := st.placeholder_found || hasSent l } := by
    rw [phaseSent, hasSent]
    by_cases hs : strHasSub l SENT = true <;> simp [hs]
  rw [hsent]
  obtain ⟨bd2, h1⟩ := phaseIfield_ok { st with placeholder_found := st.placeholder_found || hasSent l } l hif
  rw [h1]
  obtain ⟨cl2, h3⟩ := phaseListHead_attr { st with placeholder_found := st.placeholder_found || hasSent l, bdict := bd2 } l c (by simpa using hname) (by simpa using hcls) hls
  simp only [Except.bind]
  rw [phaseListBody_skip _ _ (by simpa using hlf)]
  simp only [Except.bind]
  rw [h3]
  exact ⟨bd2, cl2, rfl⟩

theorem noComment_imp (l : String) (h : noComment l = true) :
    commentStart l = true → strHasSub l SENT = true := by
  rw [noComment, hasSent] at h
  intro h1
  simpa [h1] using h

theorem parseLine_pre (st : PState) (l : String)
    (hend : st.end_reached = false)
    (hbf : st.boundaries_found = false) (hlf : st.list_found = false)
    (hname : pyTruthyName st.bname = false)
    (hif : ifieldOkB l = true) (hls : listOkB l = true) :
    ∃ bd2, parseLine st l =
      .ok { st with
        bdict := bd2
        placeholder_found := st.placeholder_found || hasSent l
        boundaries_found := strHasSub l "boundaryField"
        acc := st.acc ++ [l] } := by
  obtain ⟨bd2, h1⟩ := prePhases_pass st l hlf (Or.inr hname) hif hls
  rw [parseLine_eq st l hend, h1]
  refine ⟨bd2, ?_⟩
  simp only [Except.bind]
  rw [phaseBoundaries]
  by_cases hbfs : strHasSub l "boundaryField" = true <;>
    simp [hbf, finishLine, hbfs]

theorem parseLine_brace (st : PState) (l : String)
    (hend : st.end_reached = false)
    (hbf : st.boundaries_found = true) (hlf : st.list_found = false)
    (hnb : st.new_boundary = true)
    (hok : braceOkB l = true) :
    ∃ bd2, parseLine st l =
      .ok { st with
        bdict := bd2
        placeholder_found := st.placeholder_found || hasSent l
        num_of_lines := st.num_of_lines + 1
        acc := st.acc ++ [l] } := by
  rw [braceOkB] at hok
  simp only [Bool.and_eq_true, Option.isNone_iff_eq_none, Bool.not_eq_true'] at hok
  obtain ⟨⟨⟨⟨⟨⟨hif, hlm⟩, hbr⟩, hnc⟩, hnm⟩, htm⟩, hpm⟩ := hok
  obtain ⟨bd2, h1⟩ := prePhases_pass st l hlf (Or.inl hlm) hif (by rw [listOkB, hlm])
  rw [parseLine_eq st l hend, h1]
  refine ⟨bd2, ?_⟩
  simp only [Except.bind]
  rw [phaseBoundaries]
  simp [hbf, hnm, hnb, hbr, htm, hpm, finishLine]
  exact noComment_imp l hnc


theorem nameMatch_truthy (l nm : String) (h : nameMatch l = some nm) :
    pyTruthyName (some (pyName nm)) = true := by
  have hne : nm ≠ "" := by
    rw [nameMatch] at h
    split at h
    · split at h
      · cases h; simp
      · cases h
    · split at h
      · split at h
        · cases h
          simp [String.ext_iff]
        · cases h
      · cases h
    · cases h
  rw [pyTruthyName, pyName]
  by_cases he : nm = "\".*\"" <;> simp [he, hne]

theorem parseLine_name (st : PState) (l : String)
    (hend : st.end_reached = false)
    (hbf : st.boundaries_found = true) (hlf : st.list_found = false)
    (hok : nameOkB l = true) :
    ∃ bd2 nm, nameMatch l = some nm ∧ parseLine st l =
      .ok { st with
        bdict := bd2
        placeholder_found := st.placeholder_found || hasSent l
        bname := some (pyName nm)
        new_boundary := true
        num_of_lines := st.num_of_lines + 1
        acc := st.acc ++ [l] } := by
  rw [nameOkB] at hok
  simp only [Bool.and_eq_true, Option.isNone_iff_eq_none, Option.isSome_iff_exists,
    Bool.not_eq_true'] at hok
  obtain ⟨⟨⟨⟨⟨⟨hif, hlm⟩, hbr⟩, hnc⟩, nm, hnm⟩, htm⟩, hpm⟩ := hok
  obtain ⟨bd2, h1⟩ := prePhases_pass st l hlf (Or.inl hlm) hif (by rw [listOkB, hlm])
  rw [parseLine_eq st l hend, h1]
  refine ⟨bd2, nm, hnm, ?_⟩
  simp only [Except.bind]
  rw [phaseBoundaries]
  simp [hbf, hnm, hbr, htm, hpm, finishLine]
  exact noComment_imp l hnc

theorem parseLine_type (st : PState) (l : String)
    (hend : st.end_reached = false)
    (hbf : st.boundaries_found = true) (hlf : st.list_found = false)
    (hnb : st.new_boundary = true)
    (hok : typeOkB l = true) :
    ∃ bd2 t, typeMatch l = some t ∧ parseLine st l =
      .ok { st with
        bdict := bd2
        placeholder_found := st.placeholder_found || hasSent l
        num_of_lines := st.num_of_lines + 1
        cls := some ⟨[("type", Val.vstr t)]⟩
        acc := st.acc ++ [l] } := by
  rw [typeOkB] at hok
  simp only [Bool.and_eq_true, Option.isNone_iff_eq_none, Bool.not_eq_true'] at hok
  obtain ⟨⟨⟨⟨⟨hif, hlm⟩, hbr⟩, hnc⟩, hnm⟩, hty⟩ := hok
  obtain ⟨t, htm, hkn⟩ : ∃ t, typeMatch l = some t ∧ knownBoundaryType t = true := by
    cases hT : typeMatch l with
    | none => rw [hT] at hty; cases hty
    | some t => rw [hT] at hty; exact ⟨t, rfl, hty⟩
  obtain ⟨bd2, h1⟩ := prePhases_pass st l hlf (Or.inl hlm) hif (by rw [listOkB, hlm])
  rw [parseLine_eq st l hend, h1]
  refine ⟨bd2, t, htm, ?_⟩
  simp only [Except.bind]
  rw [phaseBoundaries]
  simp [hbf, hnm, hnb, hbr, htm, hkn, finishLine]
  exact noComment_imp l hnc

theorem parseLine_attr (st : PState) (l : String) (c : BInst)
    (hend : st.end_reached = false)
    (hbf : st.boundaries_found = true) (hlf : st.list_found = false)
    (hnb : st.new_boundary = true)
    (hbname : pyTruthyName st.bname = true) (hcls : st.cls = some c)
    (hok : attrOkB l = true) :
    ∃ bd2 cl3, parseLine st l =
      .ok { st with
        bdict := bd2
        placeholder_found := st.placeholder_found || hasSent l
        num_of_lines := st.num_of_lines + 1
        cls := some cl3
        acc := st.acc ++ [l] } := by
  rw [attrOkB] at hok
  simp only [Bool.and_eq_true, Option.isNone_iff_eq_none, Bool.not_eq_true'] at hok
  obtain ⟨⟨⟨⟨⟨⟨hif, hls⟩, hbr⟩, hnc⟩, hnm⟩, htm⟩, hpm⟩ := hok
  obtain ⟨bd2, cl2, h1⟩ := prePhases_attr st l c hlf hbname hcls hif hls
  rw [parseLine_eq st l hend, h1]
  simp only [Except.bind]
  rw [phaseBoundaries]
  cases hPM : paramMatch l with
  | none =>
      refine ⟨bd2, cl2, ?_⟩
      simp [hbf, hnm, hnb, hbr, htm, hPM, finishLine]
      exact noComment_imp l hnc
  | some pm =>
      rw [hPM] at hpm
      simp only [bne_iff_ne, ne_eq] at hpm
      refine ⟨bd2, ⟨dictUpd (if pm.2.1 then (⟨dictUpd cl2.battrs "is_uniform" (.vbool true)⟩ : BInst) else cl2).battrs pm.1 (g3Val pm.2.2)⟩, ?_⟩
      simp [hbf, hnm, hnb, hbr, htm, hPM, hpm, finishLine]
      exact noComment_imp l hnc

theorem parseLine_close (st : PState) (l : String)
    (hend : st.end_reached = false)
    (hbf : st.boundaries_found = true) (hlf : st.list_found = false)
    (hnb : st.new_boundary = true)
    (hok : closeOkB l = true) :
    ∃ bd2 fl2, parseLine st l =
      .ok { st with
        bdict := bd2
        flines := fl2
        placeholder_found := st.placeholder_found || hasSent l
        new_boundary := false
        bname := none
        cls := none
        num_of_lines := 0
        acc := st.acc ++ [l] } := by
  rw [closeOkB] at hok
  simp only [Bool.and_eq_true, Option.isNone_iff_eq_none, Bool.not_eq_true'] at hok
  obtain ⟨⟨⟨⟨hif, hlm⟩, hnc⟩, hnm⟩, hbr⟩ := hok
  obtain ⟨bd2, h1⟩ := prePhases_pass st l hlf (Or.inl hlm) hif (by rw [listOkB, hlm])
  rw [parseLine_eq st l hend, h1]
  refine ⟨bdictUpd bd2 st.bname (.entInst st.cls),
    flUpd st.flines st.bname st.num_of_lines, ?_⟩
  simp only [Except.bind]
  rw [phaseBoundaries]
  simp [hbf, hnm, hnb, hbr]
  exact noComment_imp l hnc

theorem parseLine_mid (st : PState) (l : String)
    (hend : st.end_reached = false)
    (hbf : st.boundaries_found = true) (hlf : st.list_found = false)
    (hnb : st.new_boundary = false)
    (hname : pyTruthyName st.bname = false)
    (hok : midOkB l = true) :
    ∃ bd2, parseLine st l =
      .ok { st with
        bdict := bd2
        placeholder_found := st.placeholder_found || hasSent l
        acc := st.acc ++ [l] } := by
  rw [midOkB] at hok
  simp only [Bool.and_eq_true, Option.isNone_iff_eq_none, Bool.not_eq_true'] at hok
  obtain ⟨⟨⟨⟨hif, hls⟩, hbr⟩, hnc⟩, hnm⟩ := hok
  obtain ⟨bd2, h1⟩ := prePhases_pass st l hlf (Or.inr hname) hif hls
  rw [parseLine_eq st l hend, h1]
  refine ⟨bd2, ?_⟩
  simp only [Except.bind]
  rw [phaseBoundaries]
  simp [hbf, hnm, hnb, hbr, finishLine]
  exact noComment_imp l hnc

theorem parseLine_closeBF_found (st : PState) (l : String)
    (hend : st.end_reached = false)
    (hbf : st.boundaries_found = true) (hlf : st.list_found = false)
    (hnb : st.new_boundary = false)
    (hname : pyTruthyName st.bname = false)
    (hpf : (st.placeholder_found || hasSent l) = true)
    (hok : closeOkB l = true) :
    ∃ bd2, parseLine st l =
      .ok { st with
        bdict := bd2
        placeholder_found := true
        broke := true } := by
  rw [closeOkB] at hok
  simp only [Bool.and_eq_true, Option.isNone_iff_eq_none, Bool.not_eq_true'] at hok
  obtain ⟨⟨⟨⟨hif, hlm⟩, hnc⟩, hnm⟩, hbr⟩ := hok
  obtain ⟨bd2, h1⟩ := prePhases_pass st l hlf (Or.inr hname) hif (by rw [listOkB, hlm])
  rw [parseLine_eq st l hend, h1]
  refine ⟨bd2, ?_⟩
  simp only [Except.bind]
  rw [phaseBoundaries]
  have hcm : ¬ (commentStart l = true ∧ ¬ strHasSub l SENT = true) := by
    rintro ⟨h1, h2⟩
    exact h2 (noComment_imp l hnc h1)
  rw [if_neg hcm]
  have hpf2 : ¬ (st.placeholder_found = false ∧ hasSent l = false) := by
    rintro ⟨h1, h2⟩
    rw [h1, h2] at hpf
    cases hpf
  simp [hnm, hnb, hbr, hbf, hpf2, hpf]

theorem parseLine_closeBF_ins (st : PState) (l : String)
    (hend : st.end_reached = false)
    (hbf : st.boundaries_found = true) (hlf : st.list_found = false)
    (hnb : st.new_boundary = false)
    (hname : pyTruthyName st.bname = false)
    (hpf : st.placeholder_found = false)
    (hs : hasSent l = false)
    (hok : closeOkB l = true) :
    ∃ bd2, parseLine st l =
      .ok { st with
        bdict := bd2
        end_reached := true
        acc := st.acc ++ [SENT ++ "\n", l] } := by
  rw [closeOkB] at hok
  simp only [Bool.and_eq_true, Option.isNone_iff_eq_none, Bool.not_eq_true'] at hok
  obtain ⟨⟨⟨⟨hif, hlm⟩, hnc⟩, hnm⟩, hbr⟩ := hok
  obtain ⟨bd2, h1⟩ := prePhases_pass st l hlf (Or.inr hname) hif (by rw [listOkB, hlm])
  rw [parseLine_eq st l hend, h1]
  refine ⟨bd2, ?_⟩
  simp only [Except.bind]
  rw [phaseBoundaries]
  have hcm : ¬ (commentStart l = true ∧ ¬ strHasSub l SENT = true) := by
    rintro ⟨h1, h2⟩
    exact h2 (noComment_imp l hnc h1)
  rw [if_neg hcm]
  by_cases hbfs : strHasSub l "boundaryField" = true <;>
    simp [hnm, hnb, hbr, hbf, hpf, hs, finishLine, hbfs]


theorem runParse_single (st : PState) (l : String) (hbroke : st.broke = false) :
    runParse st [l] = parseLine st l := by
  rw [runParse, if_neg (by simp [hbroke])]
  cases h : parseLine st l <;> simp [runParse, Except.bind]

theorem walk_header (st : PState) (hdr : List String)
    (hend : st.end_reached = false) (hbroke : st.broke = false)
    (hbf : st.boundaries_found = false) (hlf : st.list_found = false)
    (hname : pyTruthyName st.bname = false)
    (hall : hdr.all headerOkB = true) :
    ∃ bd2, runParse st hdr =
      .ok { st with bdict := bd2, placeholder_found := st.placeholder_found || hdr.any hasSent, acc := st.acc ++ hdr } := by
  induction hdr generalizing st with
  | nil =>
      refine ⟨st.bdict, ?_⟩
      simp [runParse]
  | cons l ls ih =>
      simp only [List.all_cons, Bool.and_eq_true] at hall
      obtain ⟨hok, hall⟩ := hall
      rw [headerOkB] at hok
      simp only [Bool.and_eq_true, Bool.not_eq_true'] at hok
      obtain ⟨⟨hif, hls⟩, hnbf⟩ := hok
      obtain ⟨bd2, h1⟩ := parseLine_pre st l hend hbf hlf hname hif hls
      obtain ⟨bd3, h2⟩ := ih { st with bdict := bd2, placeholder_found := st.placeholder_found || hasSent l, boundaries_found := strHasSub l "boundaryField", acc := st.acc ++ [l] } (by simp [hend]) (by simp [hbroke]) (by simp [hnbf]) (by simp [hlf]) (by simp [hname]) hall
      refine ⟨bd3, ?_⟩
      rw [runParse, if_neg (by simp [hbroke]), h1]
      simp only [Except.bind]
      rw [h2]
      simp [Bool.or_assoc, hnbf, hbf]

theorem walk_mid (st : PState) (mid : List String)
    (hend : st.end_reached = false) (hbroke : st.broke = false)
    (hbf : st.boundaries_found = true) (hlf : st.list_found = false)
    (hnb : st.new_boundary = false)
    (hname : pyTruthyName st.bname = false)
    (hall : mid.all midOkB = true) :
    ∃ bd2, runParse st mid =
      .ok { st with bdict := bd2, placeholder_found := st.placeholder_found || mid.any hasSent, acc := st.acc ++ mid } := by
  induction mid generalizing st with
  | nil =>
      refine ⟨st.bdict, ?_⟩
      simp [runParse]
  | cons l ls ih =>
      simp only [List.all_cons, Bool.and_eq_true] at hall
      obtain ⟨hok, hall⟩ := hall
      obtain ⟨bd2, h1⟩ := parseLine_mid st l hend hbf hlf hnb hname hok
      obtain ⟨bd3, h2⟩ := ih { st with bdict := bd2, placeholder_found := st.placeholder_found || hasSent l, acc := st.acc ++ [l] } (by simp [hend]) (by simp [hbroke]) (by simp [hbf]) (by simp [hlf]) (by simp [hnb]) (by simp [hname]) hall
      refine ⟨bd3, ?_⟩
      rw [runParse, if_neg (by simp [hbroke]), h1]
      simp only [Except.bind]
      rw [h2]
      simp [Bool.or_assoc]

theorem walk_attrs (st : PState) (ls : List String) (c : BInst)
    (hend : st.end_reached = false) (hbroke : st.broke = false)
    (hbf : st.boundaries_found = true) (hlf : st.list_found = false)
    (hnb : st.new_boundary = true)
    (hbname : pyTruthyName st.bname = true) (hcls : st.cls = some c)
    (hall : ls.all attrOkB = true) :
    ∃ bd2 cl2, runParse st ls =
      .ok { st with bdict := bd2, cls := some cl2, placeholder_found := st.placeholder_found || ls.any hasSent, num_of_lines := st.num_of_lines + ls.length, acc := st.acc ++ ls } := by
  induction ls generalizing st c with
  | nil =>
      refine ⟨st.bdict, c, ?_⟩
      simp [runParse, ← hcls]
  | cons l ls ih =>
      simp only [List.all_cons, Bool.and_eq_true] at hall
      obtain ⟨hok, hall⟩ := hall
      obtain ⟨bd2, cl3, h1⟩ := parseLine_attr st l c hend hbf hlf hnb hbname hcls hok
      obtain ⟨bd3, cl4, h2⟩ := ih { st with bdict := bd2, placeholder_found := st.placeholder_found || hasSent l, num_of_lines := st.num_of_lines + 1, cls := some cl3, acc := st.acc ++ [l] } cl3 (by simp [hend]) (by simp [hbroke]) (by simp [hbf]) (by simp [hlf]) (by simp [hnb]) (by simp [hbname]) (by simp) hall
      refine ⟨bd3, cl4, ?_⟩
      rw [runParse, if_neg (by simp [hbroke]), h1]
      simp only [Except.bind]
      rw [h2]
      simp [Bool.or_assoc]
      omega


theorem walk_patch (st : PState) (p : WFPatch)
    (hend : st.end_reached = false) (hbroke : st.broke = false)
    (hbf : st.boundaries_found = true) (hlf : st.list_found = false)
    (hok : patchOkB p = true) :
    ∃ bd2 fl2, runParse st p.linesOf =
      .ok { st with bdict := bd2, flines := fl2, placeholder_found := st.placeholder_found || p.linesOf.any hasSent, new_boundary := false, bname := none, cls := none, num_of_lines := 0, acc := st.acc ++ p.linesOf } := by
  rw [patchOkB] at hok
  simp only [Bool.and_eq_true] at hok
  obtain ⟨⟨⟨⟨hnm, hbrc⟩, hty⟩, hats⟩, hcl⟩ := hok
  rw [WFPatch.linesOf]
  obtain ⟨bd1, nm, hnm1, h1⟩ := parseLine_name st p.nameLn hend hbf hlf hnm
  obtain ⟨bd2, h2⟩ := parseLine_brace { st with bdict := bd1, placeholder_found := st.placeholder_found || hasSent p.nameLn, bname := some (pyName nm), new_boundary := true, num_of_lines := st.num_of_lines + 1, acc := st.acc ++ [p.nameLn] } p.openLn (by simp [hend]) (by simp [hbf]) (by simp [hlf]) (by simp) hbrc
  obtain ⟨bd3, t, ht3, h3⟩ := parseLine_type { st with bdict := bd2, placeholder_found := st.placeholder_found || hasSent p.nameLn || hasSent p.openLn, bname := some (pyName nm), new_boundary := true, num_of_lines := st.num_of_lines + 1 + 1, acc := st.acc ++ [p.nameLn] ++ [p.openLn] } p.typeLn (by simp [hend]) (by simp [hbf]) (by simp [hlf]) (by simp) hty
  obtain ⟨bd4, cl4, h4⟩ := walk_attrs { st with bdict := bd3, placeholder_found := st.placeholder_found || hasSent p.nameLn || hasSent p.openLn || hasSent p.typeLn, bname := some (pyName nm), new_boundary := true, num_of_lines := st.num_of_lines + 1 + 1 + 1, cls := some ⟨[("type", Val.vstr t)]⟩, acc := st.acc ++ [p.nameLn] ++ [p.openLn] ++ [p.typeLn] } p.attrs ⟨[("type", Val.vstr t)]⟩ (by simp [hend]) (by simp [hbroke]) (by simp [hbf]) (by simp [hlf]) (by simp) (by simpa using nameMatch_truthy p.nameLn nm hnm1) (by simp) hats
  obtain ⟨bd5, fl5, h5⟩ := parseLine_close { st with bdict := bd4, placeholder_found := st.placeholder_found || hasSent p.nameLn || hasSent p.openLn || hasSent p.typeLn || p.attrs.any hasSent, bname := some (pyName nm), new_boundary := true, num_of_lines := st.num_of_lines + 1 + 1 + 1 + p.attrs.length, cls := some cl4, acc := st.acc ++ [p.nameLn] ++ [p.openLn] ++ [p.typeLn] ++ p.attrs } p.closeLn (by simp [hend]) (by simp [hbf]) (by simp [hlf]) (by simp) hcl
  refine ⟨bd5, fl5, ?_⟩
  simp only [List.cons_append, List.nil_append, List.append_assoc]
  rw [runParse, if_neg (by simp [hbroke]), h1]
  simp only [Except.bind]
  rw [runParse, if_neg (by simp [hbroke]), h2]
  simp only [Except.bind]
  rw [runParse, if_neg (by simp [hbroke]), h3]
  simp only [Except.bind]
  rw [runParse_append, h4]
  simp only [Except.bind]
  rw [runParse_single _ _ (by simp [hbroke]), h5]
  simp [Bool.or_assoc, List.any_append, List.append_assoc]


theorem walk_patches (st : PState) (p : WFPatch) (ps : List WFPatch)
    (hend : st.end_reached = false) (hbroke : st.broke = false)
    (hbf : st.boundaries_found = true) (hlf : st.list_found = false)
    (hall : (p :: ps).all patchOkB = true) :
    ∃ bd2 fl2, runParse st ((p :: ps).map WFPatch.linesOf).flatten =
      .ok { st with bdict := bd2, flines := fl2, placeholder_found := st.placeholder_found || ((p :: ps).map WFPatch.linesOf).flatten.any hasSent, new_boundary := false, bname := none, cls := none, num_of_lines := 0, acc := st.acc ++ ((p :: ps).map WFPatch.linesOf).flatten } := by
  induction ps generalizing st p with
  | nil =>
      simp only [List.all_cons, Bool.and_eq_true, List.all_nil, and_true] at hall
      obtain ⟨bd2, fl2, h1⟩ := walk_patch st p hend hbroke hbf hlf hall
      refine ⟨bd2, fl2, ?_⟩
      simpa using h1
  | cons q qs ih =>
      simp only [List.all_cons, Bool.and_eq_true] at hall
      obtain ⟨hp, hq, hqs⟩ := hall
      obtain ⟨bd2, fl2, h1⟩ := walk_patch st p hend hbroke hbf hlf hp
      obtain ⟨bd3, fl3, h2⟩ := ih { st with bdict := bd2, flines := fl2, placeholder_found := st.placeholder_found || p.linesOf.any hasSent, new_boundary := false, bname := none, cls := none, num_of_lines := 0, acc := st.acc ++ p.linesOf } q (by simp [hend]) (by simp [hbroke]) (by simp [hbf]) (by simp [hlf]) (by simp [hq, hqs])
      refine ⟨bd3, fl3, ?_⟩
      have hsplit : ((p :: q :: qs).map WFPatch.linesOf).flatten = p.linesOf ++ ((q :: qs).map WFPatch.linesOf).flatten := by
        simp
      rw [hsplit, runParse_append, h1]
      simp only [Except.bind]
      rw [h2]
      simp [Bool.or_assoc, List.any_append, List.append_assoc]


theorem runParse_nil (st : PState) : runParse st [] = .ok st := rfl

theorem walk_pre (f : WFFile) (bdict0 : Bdict) (flines0 : List (Option String × ℕ))
    (p : WFPatch) (ps : List WFPatch) (hpe : f.patches = p :: ps)
    (hhdr : f.header.all headerOkB = true) (hbfl : bfOkB f.bfLine = true)
    (hop : braceOkB f.openLn = true) (hps : f.patches.all patchOkB = true)
    (hmid : f.mid.all midOkB = true) :
    ∃ bd fl, runParse (initPState bdict0 flines0) f.preLines =
      .ok ⟨f.preLines.any hasSent, false, false, true, false, false, false, "", none, 0, none, bd, fl, f.preLines⟩ := by
  rw [bfOkB] at hbfl
  simp only [Bool.and_eq_true] at hbfl
  obtain ⟨⟨hbif, hbls⟩, hbsub⟩ := hbfl
  set st0 : PState := ⟨false, false, false, false, true, false, false, "", some "", 0, none, bdict0, flines0, []⟩ with hst0
  have hini : initPState bdict0 flines0 = st0 := rfl
  obtain ⟨bd1, h1⟩ := walk_header st0 f.header (by simp [hst0]) (by simp [hst0]) (by simp [hst0]) (by simp [hst0]) (by simp [hst0, pyTruthyName]) hhdr
  set S1 : PState := { st0 with bdict := bd1, placeholder_found := st0.placeholder_found || f.header.any hasSent, acc := st0.acc ++ f.header } with hS1
  obtain ⟨bd2, h2⟩ := parseLine_pre S1 f.bfLine (by simp [hS1, hst0]) (by simp [hS1, hst0]) (by simp [hS1, hst0]) (by simp [hS1, hst0, pyTruthyName]) hbif hbls
  rw [hbsub] at h2
  set S2 : PState := { S1 with bdict := bd2, placeholder_found := S1.placeholder_found || hasSent f.bfLine, boundaries_found := true, acc := S1.acc ++ [f.bfLine] } with hS2
  obtain ⟨bd3, h3⟩ := parseLine_brace S2 f.openLn (by simp [hS2, hS1, hst0]) (by simp [hS2, hS1, hst0]) (by simp [hS2, hS1, hst0]) (by simp [hS2, hS1, hst0]) hop
  set S3 : PState := { S2 with bdict := bd3, placeholder_found := S2.placeholder_found || hasSent f.openLn, num_of_lines := S2.num_of_lines + 1, acc := S2.acc ++ [f.openLn] } with hS3
  obtain ⟨bd4, fl4, h4⟩ := walk_patches S3 p ps (by simp [hS3, hS2, hS1, hst0]) (by simp [hS3, hS2, hS1, hst0]) (by simp [hS3, hS2, hS1, hst0]) (by simp [hS3, hS2, hS1, hst0]) (by rw [← hpe]; exact hps)
  set S4 : PState := { S3 with bdict := bd4, flines := fl4, placeholder_found := S3.placeholder_found || ((p :: ps).map WFPatch.linesOf).flatten.any hasSent, new_boundary := false, bname := none, cls := none, num_of_lines := 0, acc := S3.acc ++ ((p :: ps).map WFPatch.linesOf).flatten } with hS4
  obtain ⟨bd5, h5⟩ := walk_mid S4 f.mid (by simp [hS4, hS3, hS2, hS1, hst0]) (by simp [hS4, hS3, hS2, hS1, hst0]) (by simp [hS4, hS3, hS2, hS1, hst0]) (by simp [hS4, hS3, hS2, hS1, hst0]) (by simp [hS4, hS3, hS2, hS1, hst0]) (by simp [hS4, pyTruthyName]) hmid
  set S5 : PState := { S4 with bdict := bd5, placeholder_found := S4.placeholder_found || f.mid.any hasSent, acc := S4.acc ++ f.mid } with hS5
  refine ⟨bd5, fl4, ?_⟩
  rw [hini, WFFile.preLines, hpe]
  rw [runParse_append, runParse_append, runParse_append, h1]
  simp only [Except.bind]
  rw [runParse, if_neg (by simp [hS1, hst0]), h2]
  simp only [Except.bind]
  rw [runParse, if_neg (by simp [hS2, hS1, hst0]), h3]
  simp only [Except.bind]
  rw [runParse_nil]
  simp only [Except.bind]
  rw [h4]
  simp only [Except.bind]
  rw [h5]
  simp [hS5, hS4, hS3, hS2, hS1, hst0, Bool.or_assoc, List.any_append, List.append_assoc]


/-- C3: parsing a well-formed dictionary file and making no changes is a
byte-identical round trip apart from the one-time sentinel insertion.  If any
line the parser walks through (up to and including the closing brace of
`boundaryField`) holds the sentinel, no write happens and the file's lines are
returned unchanged; otherwise the file is rewritten with exactly the sentinel
line inserted immediately before the closing brace, every other line preserved
byte for byte. -/
theorem C3_parse_roundtrip (f : WFFile) (bdict0 : Bdict) (flines0 : List (Option String × ℕ))
    (hwf : f.wf = true) :
    ((f.preLines ++ [f.closeLn]).any hasSent = true →
      (parse_file f.linesOf bdict0 flines0 true).map (fun o => (o.fileLines, o.wrote))
        = .ok (f.linesOf, false)) ∧
    ((f.preLines ++ [f.closeLn]).any hasSent = false →
      (parse_file f.linesOf bdict0 flines0 true).map (fun o => (o.fileLines, o.wrote))
        = .ok (f.preLines ++ [SENT ++ "\n", f.closeLn] ++ f.footer, true)) := by
  rw [WFFile.wf] at hwf
  simp only [Bool.and_eq_true] at hwf
  obtain ⟨⟨⟨⟨⟨⟨hhdr, hbfl⟩, hop⟩, hne⟩, hps⟩, hmid⟩, hcl⟩ := hwf
  obtain ⟨p, ps, hpe⟩ : ∃ p ps, f.patches = p :: ps := by
    cases hq : f.patches with
    | nil => rw [hq] at hne; simp at hne
    | cons a as => exact ⟨a, as, rfl⟩
  obtain ⟨bd5, fl5, h5⟩ := walk_pre f bdict0 flines0 p ps hpe hhdr hbfl hop hps hmid
  set S5 : PState := ⟨f.preLines.any hasSent, false, false, true, false, false, false, "", none, 0, none, bd5, fl5, f.preLines⟩ with hS5
  have hlines : f.linesOf = f.preLines ++ ([f.closeLn] ++ f.footer) := by
    rw [WFFile.linesOf, List.append_assoc]
  constructor
  · intro hsent
    obtain ⟨bd6, h6⟩ := parseLine_closeBF_found S5 f.closeLn (by simp [hS5]) (by simp [hS5]) (by simp [hS5]) (by simp [hS5]) (by simp [hS5, pyTruthyName]) (by simpa [hS5, List.any_append] using hsent) hcl
    rw [parse_file, hlines, runParse_append, h5]
    simp only [Except.bind]
    rw [runParse_append, runParse_single _ _ (by simp [hS5]), h6]
    simp only [Except.bind]
    rw [runParse_broke _ _ (by simp)]
    simp [Except.map]
  · intro hsent
    simp only [List.any_append, List.any_cons, List.any_nil, Bool.or_false, Bool.or_eq_false_iff] at hsent
    obtain ⟨hpre, hclsent⟩ := hsent
    obtain ⟨bd6, h6⟩ := parseLine_closeBF_ins S5 f.closeLn (by simp [hS5]) (by simp [hS5]) (by simp [hS5]) (by simp [hS5]) (by simp [hS5, pyTruthyName]) (by simp [hS5, hpre]) (by simpa using hclsent) hcl
    rw [parse_file, hlines, runParse_append, h5]
    simp only [Except.bind]
    rw [runParse_append, runParse_single _ _ (by simp [hS5]), h6]
    simp only [Except.bind]
    rw [runParse_end _ _ (by simp) (by simp [hS5])]
    simp [Except.map, hS5, hpre, List.append_assoc]


/-- The round trip evaluated at a concrete two-patch temperature file: the
first parse inserts the sentinel and writes; the parse of the same file with
the sentinel present writes nothing and keeps the bytes. -/
theorem C3_witness :
    (c3file false).wf = true ∧ (c3file true).wf = true ∧
    (parse_file (c3file false).linesOf [] [] true).map (fun o => (o.fileLines, o.wrote))
      = .ok ((c3file false).preLines ++ [SENT ++ "\n", (c3file false).closeLn] ++ (c3file false).footer, true) ∧
    (parse_file (c3file true).linesOf [] [] true).map (fun o => (o.fileLines, o.wrote))
      = .ok ((c3file true).linesOf, false) :=
  ⟨by decide, by decide,
   (C3_parse_roundtrip (c3file false) [] [] (by decide)).2 (by decide),
   (C3_parse_roundtrip (c3file true) [] [] (by decide)).1 (by decide)⟩

end Codec

end Wop
